import Mathlib

/-!
# ExposureRender core: host 2D buffer, camera and tracer

A shallow embedding of `renderer/buffer/host/hostbuffer2d.h`,
`renderer/core/camera.h` and `renderer/core/tracer.h`, with the properties stated
about them.

Modelling conventions

* `int` is an integer of `ℤ`; resolutions and indices are assumed to stay inside
  the range of `int`, so no arithmetic wraps.
* The conversion `(int)x` of a `float` is the integer part of `x`. C++ defines it
  only for values inside the range of `int` (`InIntRange`); every property of the
  continuous access that takes an arbitrary coordinate assumes that range.
* Division and square root are the total operations of the reals (`x / 0 = 0`,
  `√x = 0` for negative `x`), where `float` gives infinities and NaN; every
  property of the thin-lens branch assumes a polygon blade count that is not `0`
  and draws in `[0, 1)`.
* `float` is an exact ordered field `F` (no rounding, no infinities, no NaN).
  The buffer code is generic in `F` and evaluates at `F = ℚ`; the camera code
  needs square roots and is stated over `ℝ`; the tracer only stores and copies its
  `float` members, which are rationals.
* `T* Data` is `Option (List T)`: `none` is the null pointer, `some d` is
  allocated storage holding the elements `d`. Reading outside the storage (or
  through the null pointer) is a fault, modelled by `none` in `Option T`.
-/

namespace ExposureRender

/-! ## Vectors -/

/-- Two-component vector of the source (`Vec2i`, `Vec2f`). -/
structure Vec2 (α : Type) where
  x : α
  y : α
deriving DecidableEq, Repr

/-- Integer vector `Vec2i`. -/
abbrev Vec2i := Vec2 ℤ

/-- Floating-point vector `Vec2f`, over the field `F` standing for `float`. -/
abbrev Vec2f (F : Type) := Vec2 F

/-- Component-wise product `XY * Vec2f(a, b)`. -/
def Vec2.mul {α : Type} [Mul α] (a b : Vec2 α) : Vec2 α := ⟨a.x * b.x, a.y * b.y⟩

/-- Modelled from the spec: the default constructor of `Vec2f` is not part of the
sources at hand; the spec says an aperture shape outside the two variants leaves "the
lens offset unset (silent no-op)", so a default-constructed vector is zero. -/
def Vec2.new {α : Type} [Zero α] : Vec2 α := ⟨0, 0⟩

namespace Enums

/-- Filter modes of a buffer. `Other` stands for every value of the enumeration
type that is neither `NearestNeighbour` nor `Linear` (the `default:` label). -/
inductive FilterMode where
  | NearestNeighbour
  | Linear
  | Other
deriving DecidableEq, Repr

/-- Address modes of a buffer. -/
inductive AddressMode where
  | Wrap
  | Clamp
deriving DecidableEq, Repr

end Enums

/-! ## HostBuffer2D -/

/-- Smallest value of the 32-bit `int` of the source. -/
def INT_MIN : ℤ := -2147483648

/-- Largest value of the 32-bit `int` of the source. -/
def INT_MAX : ℤ := 2147483647

/-- The integer `z` is a value of `int`: the conversion `(int)x` of a `float` `x`
with integer part `z` is defined and gives `z`. -/
def InIntRange (z : ℤ) : Prop := INT_MIN ≤ z ∧ z ≤ INT_MAX

instance (z : ℤ) : Decidable (InIntRange z) := by
  unfold InIntRange
  infer_instance

/-- Modelled from the spec: the helper `Clamp(Value, Min, Max)` is not part of the
sources at hand; the spec says coordinates are clamped into `[0, dim-1]`. The
formula is the one the `Linear` case of the continuous access spells out,
`min(max(Value, Min), Max)`. -/
def Clamp (Value Min Max : ℤ) : ℤ := min (max Value Min) Max

/-- State of a `HostBuffer2D<T>`: the members inherited from `HostBuffer<T, 2>`
that the class reads (`Data`, `Resolution`, `FilterMode`, `AddressMode`). -/
structure HostBuffer2D (T : Type) where
  Data : Option (List T)
  Resolution : Vec2i
  FilterMode : Enums.FilterMode
  AddressMode : Enums.AddressMode

namespace HostBuffer2D

variable {T : Type}

/-- Modelled from the spec: the base-class constructor `HostBuffer<T, 2>(FilterMode,
AddressMode)` is not part of the sources at hand; the spec says a buffer is
"created empty": no storage, resolution zero. -/
def new (FilterMode : Enums.FilterMode) (AddressMode : Enums.AddressMode) : HostBuffer2D T :=
  { Data := none, Resolution := ⟨0, 0⟩, FilterMode := FilterMode, AddressMode := AddressMode }

/-- Class invariant of the inherited members: a buffer without storage has
resolution zero, a buffer with storage holds `width * height` elements. -/
def Valid (b : HostBuffer2D T) : Prop :=
  match b.Data with
  | none => b.Resolution = ⟨0, 0⟩
  | some d => 0 ≤ b.Resolution.x ∧ 0 ≤ b.Resolution.y ∧
      (d.length : ℤ) = b.Resolution.x * b.Resolution.y

/-- The read `this->Data[i]`: a fault (`none`) through the null pointer and
outside the storage. -/
def read (b : HostBuffer2D T) (i : ℤ) : Option T :=
  match b.Data with
  | none => none
  | some d => if 0 ≤ i then d[i.toNat]? else none

/-- The element index `ClampedXY[1] * Resolution[0] + ClampedXY[0]` of the
discrete access. -/
def index (b : HostBuffer2D T) (X Y : ℤ) : ℤ :=
  let ClampedXY : Vec2i := ⟨Clamp X 0 (b.Resolution.x - 1), Clamp Y 0 (b.Resolution.y - 1)⟩
  ClampedXY.y * b.Resolution.x + ClampedXY.x

/-- Discrete access `operator()(const int& X, const int& Y)`. -/
def elemAt (b : HostBuffer2D T) (X Y : ℤ) : Option T :=
  let ClampedXY : Vec2i := ⟨Clamp X 0 (b.Resolution.x - 1), Clamp Y 0 (b.Resolution.y - 1)⟩
  b.read (ClampedXY.y * b.Resolution.x + ClampedXY.x)

/-- Discrete access `operator()(const Vec2i& XY)`. -/
def elemAtVec (b : HostBuffer2D T) (XY : Vec2i) : Option T :=
  let ClampedXY : Vec2i := ⟨Clamp XY.x 0 (b.Resolution.x - 1), Clamp XY.y 0 (b.Resolution.y - 1)⟩
  b.read (ClampedXY.y * b.Resolution.x + ClampedXY.x)

/-- Continuous access `operator()(const Vec2f& XY, const bool Normalized)`. The
conversions `(int)floorf(x)` and `(int)ceilf(x)` are `⌊x⌋` and `⌈x⌉`, which is what
they give for `InIntRange ⌊x⌋` and `InIntRange ⌈x⌉`; outside that range the
conversion is undefined in C++ and nothing is stated about it. -/
def sample {F : Type} [LinearOrderedField F] [FloorRing F] [Inhabited T] [AddCommMonoid T]
    [Module F T] (b : HostBuffer2D T) (XY : Vec2f F) (Normalized : Bool) : Option T :=
  match b.Data with
  | none => some default
  | some _ =>
    let UV : Vec2f F :=
      if Normalized then XY.mul ⟨(b.Resolution.x : F), (b.Resolution.y : F)⟩ else XY
    match b.FilterMode with
    | Enums.FilterMode.NearestNeighbour => b.elemAt ⌊UV.x⌋ ⌊UV.y⌋
    | Enums.FilterMode.Linear =>
      let Coord00 : ℤ := ⌊UV.x⌋
      let Coord01 : ℤ := ⌈UV.x⌉
      let Coord10 : ℤ := ⌊UV.y⌋
      let Coord11 : ℤ := ⌈UV.y⌉
      let du : F := UV.x - (Coord00 : F)
      let dv : F := UV.y - (Coord10 : F)
      let C00 := min (max Coord00 0) (b.Resolution.x - 1)
      let C01 := min (max Coord01 0) (b.Resolution.x - 1)
      let C10 := min (max Coord10 0) (b.Resolution.y - 1)
      let C11 := min (max Coord11 0) (b.Resolution.y - 1)
      (b.elemAt C00 C10).bind fun V0 =>
      (b.elemAt C01 C10).bind fun V1 =>
      (b.elemAt C00 C11).bind fun V2 =>
      (b.elemAt C01 C11).bind fun V3 =>
      some ((1 - dv) • ((1 - du) • V0 + du • V1) + dv • ((1 - du) • V2 + du • V3))
    | Enums.FilterMode.Other => some default

/-- Modelled from the spec: `HostBuffer::Resize` is not part of the sources at
hand; the spec says it "resizes storage to (width, height) (reallocating if
dimensions changed)". Fresh storage holds `width * height` default elements. -/
def Resize [Inhabited T] (b : HostBuffer2D T) (Resolution : Vec2i) : HostBuffer2D T :=
  if b.Resolution = Resolution then b
  else { b with Resolution := Resolution,
                Data := some (List.replicate (Resolution.x * Resolution.y).toNat default) }

/-- Modelled from the spec: `HostBuffer::GetNoBytes` is not part of the sources at
hand; the spec says `width·height·sizeof(element)` bytes are copied. Counted here
in elements. -/
def GetNoElements (b : HostBuffer2D T) : ℕ := (b.Resolution.x * b.Resolution.y).toNat

/-- The call `memcpy(this->Data, Data, n)` for `n` elements: a fault when the
source is shorter than `n` or the destination cannot hold `n` elements. -/
def memcpy (b : HostBuffer2D T) (Data : List T) (n : ℕ) : Option (HostBuffer2D T) :=
  if Data.length < n then none
  else match b.Data with
    | none => if n = 0 then some b else none
    | some d => if d.length < n then none
                else some { b with Data := some (Data.take n ++ d.drop n) }

/-- Data setter `SetData(void* Data, const int& Width, const int& Height)`. -/
def SetData [Inhabited T] (b : HostBuffer2D T) (Data : List T) (Width Height : ℤ) :
    Option (HostBuffer2D T) :=
  let b1 := b.Resize ⟨Width, Height⟩
  b1.memcpy Data b1.GetNoElements

/-- Accessor `Width()`. -/
def Width (b : HostBuffer2D T) : ℤ := b.Resolution.x

/-- Accessor `Height()`. -/
def Height (b : HostBuffer2D T) : ℤ := b.Resolution.y

/-- Accessor `AspectRatio()`. -/
def AspectRatio {F : Type} [LinearOrderedField F] (b : HostBuffer2D T) : F :=
  if ((b.Width : ℤ) : F) = 0 then 0 else (b.Height : F) / (b.Width : F)


end HostBuffer2D

/-! ## Camera -/

/-- Three-component vector `Vec3f`; `float` is a real number here because the
camera takes square roots. -/
@[ext]
structure Vec3f where
  x : ℝ
  y : ℝ
  z : ℝ

namespace Vec3f

/-- The vector `Vec3f(a)` with all components `a`. -/
def splat (a : ℝ) : Vec3f := ⟨a, a, a⟩

/-- Component-wise sum `A + B`. -/
def add (a b : Vec3f) : Vec3f := ⟨a.x + b.x, a.y + b.y, a.z + b.z⟩

/-- Component-wise difference `A - B`. -/
def sub (a b : Vec3f) : Vec3f := ⟨a.x - b.x, a.y - b.y, a.z - b.z⟩

/-- Scaling `A * f` (also written `f * A` in the source). -/
def scale (a : Vec3f) (f : ℝ) : Vec3f := ⟨a.x * f, a.y * f, a.z * f⟩

instance : Add Vec3f := ⟨add⟩

instance : Sub Vec3f := ⟨sub⟩

instance : HMul Vec3f ℝ Vec3f := ⟨scale⟩

instance : HMul ℝ Vec3f Vec3f := ⟨fun f a => scale a f⟩

end Vec3f

/-- Modelled from the spec: `Dot` is not part of the sources at hand; the spec
speaks of dot products of the basis vectors. The Euclidean inner product. -/
def Dot (a b : Vec3f) : ℝ := a.x * b.x + a.y * b.y + a.z * b.z

/-- Modelled from the spec: `Cross` is not part of the sources at hand; the spec
writes `N × Up`. The right-handed cross product. -/
def Cross (a b : Vec3f) : Vec3f :=
  ⟨a.y * b.z - a.z * b.y, a.z * b.x - a.x * b.z, a.x * b.y - a.y * b.x⟩

/-- Modelled from the spec: `Length` is not part of the sources at hand; the spec
speaks of unit length and of the distance between two points. The Euclidean
norm. -/
noncomputable def Length (a : Vec3f) : ℝ := Real.sqrt (Dot a a)

/-- Modelled from the spec: the two-argument `Length(A, B)` is not part of the
sources at hand; the spec calls it "the distance between Pos and Target". -/
noncomputable def Length2 (a b : Vec3f) : ℝ := Length (a - b)

/-- Modelled from the spec: `Normalize` is not part of the sources at hand; the
spec writes `normalize(v)`. The vector divided by its Euclidean norm. -/
noncomputable def Normalize (a : Vec3f) : Vec3f :=
  ⟨a.x / Length a, a.y / Length a, a.z / Length a⟩

namespace Enums

/-- Focus modes of the camera. -/
inductive FocusMode where
  | AutoFocus
  | ManualFocus

/-- Aperture shapes. `Other` stands for every value of the enumeration type that
is neither `Circular` nor `Polygon` (no `case` label of the `switch`). -/
inductive ApertureShape where
  | Circular
  | Polygon
  | Other

end Enums

/-- Modelled from the spec: class `Film` is not part of the sources at hand; the
spec lists "screen extents (min/max per axis), resolution (width, height),
precomputed inverse-screen scale". `Screen00`, `Screen01` are `Screen[0][0]`,
`Screen[0][1]` (min and max on the first axis), `Screen10`, `Screen11` those of
the second axis. -/
structure Film where
  Resolution : Vec2i
  Screen00 : ℝ
  Screen01 : ℝ
  Screen10 : ℝ
  Screen11 : ℝ
  InvScreen : Vec2f ℝ

/-- Accessor `Film::GetResolution()`. -/
def Film.GetResolution (f : Film) : Vec2i := f.Resolution

/-- Modelled from the spec: class `Ray` is not part of the sources at hand; the
spec lists "origin, direction (unit length), parametric min/max bounds, originating
image-plane coordinate". -/
structure Ray where
  O : Vec3f
  D : Vec3f
  MinT : ℝ
  MaxT : ℝ
  ImageUV : Vec2f ℝ

/-- Modelled from the spec: class `RNG` is not part of the sources at hand; the
spec says it "supplies independent uniform scalars/pairs per sampling call". The
state is the sequence of draws still to come. -/
structure RNG where
  draws : ℕ → ℝ

/-- Modelled from the spec: `RNG::Get1()` returns the next scalar draw and advances
the source. -/
def RNG.Get1 (r : RNG) : ℝ × RNG := (r.draws 0, ⟨fun n => r.draws (n + 1)⟩)

/-- Modelled from the spec: `RNG::Get2()` returns the next two scalar draws as a
pair and advances the source. -/
def RNG.Get2 (r : RNG) : Vec2f ℝ × RNG := (⟨r.draws 0, r.draws 1⟩, ⟨fun n => r.draws (n + 2)⟩)

/-- The conversion `(int)f` of a `float`: truncation toward zero. -/
noncomputable def truncToInt (f : ℝ) : ℤ := if 0 ≤ f then ⌊f⌋ else ⌈f⌉

/-- Members of class `Camera`. -/
structure Camera where
  Film : Film
  Pos : Vec3f
  Target : Vec3f
  Up : Vec3f
  FocusMode : Enums.FocusMode
  FocusUV : Vec2f ℝ
  FocalDistance : ℝ
  ApertureShape : Enums.ApertureShape
  ApertureSize : ℝ
  NoApertureBlades : ℤ
  ApertureAngle : ℝ
  FOV : ℝ
  N : Vec3f
  U : Vec3f
  V : Vec3f

namespace Camera

/-- Default constructor `Camera()`. The film is built from the resolution
`Vec2i(640, 480)` by the constructor of `Film`, which is not part of the sources
at hand and is a parameter. -/
noncomputable def new (mkFilm : Vec2i → ExposureRender.Film) : Camera :=
  { Film := mkFilm ⟨640, 480⟩
    Pos := Vec3f.splat 100
    Target := Vec3f.splat 0
    Up := ⟨0, 1, 0⟩
    FocusMode := Enums.FocusMode.AutoFocus
    FocusUV := ⟨1 / 2, 1 / 2⟩
    FocalDistance := 10
    ApertureShape := Enums.ApertureShape.Polygon
    ApertureSize := 0
    NoApertureBlades := 6
    ApertureAngle := 0
    FOV := 35
    N := Vec3f.splat 0
    U := Vec3f.splat 0
    V := Vec3f.splat 0 }

/-- The lens offset `LensUV` of the thin-lens branch of `Sample`, with the random
source after the draws it consumes. `ConcentricSampleDisk` is not part of the
sources at hand and is a parameter; the declaration `Vec2f LensUV;` gives the
default-constructed vector, which no `case` overwrites for an unrecognized shape.
The division by `NoApertureBlades` and `sqrtf` are the real operations, which is
what the `float` ones give for a blade count that is not `0` and a draw that is
not negative; outside that nothing is stated about the `Polygon` case. -/
noncomputable def LensUV (c : Camera) (ConcentricSampleDisk : Vec2f ℝ → Vec2f ℝ) (rng : RNG) :
    Vec2f ℝ × RNG :=
  match c.ApertureShape with
  | Enums.ApertureShape.Circular =>
    let g := rng.Get2
    let s := ConcentricSampleDisk g.1
    (⟨c.ApertureSize * s.x, c.ApertureSize * s.y⟩, g.2)
  | Enums.ApertureShape.Polygon =>
    let g1 := rng.Get1
    let LensY : ℝ := g1.1 * (c.NoApertureBlades : ℝ)
    let Side : ℤ := truncToInt LensY
    let Offset : ℝ := LensY - (Side : ℝ)
    let g2 := g1.2.Get1
    let Distance : ℝ := Real.sqrt g2.1
    let A0 : ℝ := (Side : ℝ) * Real.pi * 2 / (c.NoApertureBlades : ℝ) + c.ApertureAngle
    let A1 : ℝ := ((Side : ℝ) + 1) * Real.pi * 2 / (c.NoApertureBlades : ℝ) + c.ApertureAngle
    let EyeX : ℝ := (Real.cos A0 * (1 - Offset) + Real.cos A1 * Offset) * Distance
    let EyeY : ℝ := (Real.sin A0 * (1 - Offset) + Real.sin A1 * Offset) * Distance
    (⟨EyeX * c.ApertureSize, EyeY * c.ApertureSize⟩, g2.2)
  | Enums.ApertureShape.Other => (Vec2.new, rng)

/-- The method `Sample(Ray& R, const Vec2i& UV, RNG& RNG)`: the ray written to `R`
and the random source after the call. -/
noncomputable def Sample (c : Camera) (ConcentricSampleDisk : Vec2f ℝ → Vec2f ℝ) (UV : Vec2i)
    (rng : RNG) : Ray × RNG :=
  let g0 := rng.Get1
  let ImageUV0 : ℝ := (UV.x : ℝ) + g0.1
  let g1 := g0.2.Get1
  let ImageUV1 : ℝ := (UV.y : ℝ) + g1.1
  let ScreenPoint0 : ℝ := c.Film.Screen00 + c.Film.InvScreen.x * ImageUV0
  let ScreenPoint1 : ℝ := c.Film.Screen10 + c.Film.InvScreen.y * ImageUV1
  let O : Vec3f := c.Pos
  let D : Vec3f := Normalize (c.N + ScreenPoint0 * c.U - ScreenPoint1 * c.V)
  if c.ApertureSize ≠ 0 then
    let l := c.LensUV ConcentricSampleDisk g1.2
    let LI : Vec3f := c.U * l.1.x + c.V * l.1.y
    ({ O := O + LI, D := Normalize (D * c.FocalDistance - LI), MinT := -1000, MaxT := 1000,
       ImageUV := ⟨ImageUV0, ImageUV1⟩ }, l.2)
  else
    ({ O := O, D := D, MinT := -1000, MaxT := 1000, ImageUV := ⟨ImageUV0, ImageUV1⟩ }, g1.2)

/-- The method `ProjectPointToFilmPlane(const Vec3f& P, Vec2f& FilmUV)`: the
returned flag and the value of `FilmUV` after the call (untouched on `false`). -/
noncomputable def ProjectPointToFilmPlane (c : Camera) (P : Vec3f) (FilmUV : Vec2f ℝ) :
    Bool × Vec2f ℝ :=
  let Dn : Vec3f := Normalize (P - c.Pos)
  let L : ℝ := Dot Dn c.N
  let FilmP : Vec3f := c.Pos + Dn * (1 * L)
  let CamUV : Vec2f ℝ := ⟨Dot FilmP c.U, -Dot FilmP c.V⟩
  if CamUV.x < c.Film.Screen00 ∨ CamUV.x > c.Film.Screen01 then (false, FilmUV)
  else if CamUV.y < c.Film.Screen10 ∨ CamUV.y > c.Film.Screen11 then (false, FilmUV)
  else
    let ScreenSize : Vec2f ℝ :=
      ⟨c.Film.Screen01 - c.Film.Screen00, c.Film.Screen11 - c.Film.Screen10⟩
    let Offset0 : Vec2f ℝ := ⟨CamUV.x - c.Film.Screen00, CamUV.y - c.Film.Screen10⟩
    let Offset : Vec2f ℝ := ⟨Offset0.x / ScreenSize.x, Offset0.y / ScreenSize.y⟩
    (true, ⟨(c.Film.GetResolution.x : ℝ) * Offset.x, (c.Film.GetResolution.y : ℝ) * Offset.y⟩)

/-- The method `Update()`. `Film::Update(FOV)` is not part of the sources at hand
and is a parameter. -/
noncomputable def Update (FilmUpdate : ExposureRender.Film → ℝ → ExposureRender.Film)
    (c : Camera) : Camera :=
  let Film1 := FilmUpdate c.Film c.FOV
  let N1 := Normalize (c.Target - c.Pos)
  let U1 := Normalize (Cross N1 c.Up)
  let V1 := Normalize (Cross N1 U1)
  { c with
    Film := Film1
    N := N1
    U := U1
    V := V1
    FocalDistance := if c.FocalDistance = -1 then Length2 c.Target c.Pos else c.FocalDistance }

/-- The value of the local `CamUV` of `ProjectPointToFilmPlane` (source lines
114 to 120): the projected camera-plane coordinate of the world point `P`. -/
noncomputable def CamUV (c : Camera) (P : Vec3f) : Vec2f ℝ :=
  let Dn : Vec3f := Normalize (P - c.Pos)
  let L : ℝ := Dot Dn c.N
  let FilmP : Vec3f := c.Pos + Dn * (1 * L)
  ⟨Dot FilmP c.U, -Dot FilmP c.V⟩

/-- The screen point of the image coordinate `(u, v)` (source lines 62 and 63). -/
def ScreenPoint (c : Camera) (u v : ℝ) : Vec2f ℝ :=
  ⟨c.Film.Screen00 + c.Film.InvScreen.x * u, c.Film.Screen10 + c.Film.InvScreen.y * v⟩

/-- The direction `Sample` stores in `R.D` before the aperture is looked at (source
line 66), for the image coordinate `(u, v)`: the direction of the pinhole ray. -/
noncomputable def PinholeD (c : Camera) (u v : ℝ) : Vec3f :=
  Normalize (c.N + (c.ScreenPoint u v).x * c.U - (c.ScreenPoint u v).y * c.V)

/-- The local `LensY` of the `Polygon` case of `Sample` (source line 84) for the
draw `g`. -/
def PolygonLensY (c : Camera) (g : ℝ) : ℝ := g * (c.NoApertureBlades : ℝ)

/-- The local `Side` of the `Polygon` case (source line 85): the blade selected by
the draw `g`. -/
noncomputable def PolygonSide (c : Camera) (g : ℝ) : ℤ := truncToInt (c.PolygonLensY g)

/-- The local `Offset` of the `Polygon` case (source line 86): the interpolation
fraction along the selected blade. -/
noncomputable def PolygonOffset (c : Camera) (g : ℝ) : ℝ :=
  c.PolygonLensY g - (c.PolygonSide g : ℝ)

/-- The basis `N`, `U`, `V` is orthonormal, as `Update()` leaves it on a
non-degenerate pose. -/
def Orthonormal (c : Camera) : Prop :=
  Dot c.N c.N = 1 ∧ Dot c.U c.U = 1 ∧ Dot c.V c.V = 1 ∧
  Dot c.N c.U = 0 ∧ Dot c.N c.V = 0 ∧ Dot c.U c.V = 0

/-- A pinhole camera at the origin looking along `+z`, with the basis `Update()`
computes for it, an `8 × 8` film with screen extents `[-4, 4] × [-4, 4]` and
`InvScreen = (1, 1)`. -/
noncomputable def axisCamera : Camera :=
  { Film := { Resolution := ⟨8, 8⟩, Screen00 := -4, Screen01 := 4, Screen10 := -4,
              Screen11 := 4, InvScreen := ⟨1, 1⟩ }
    Pos := ⟨0, 0, 0⟩
    Target := ⟨0, 0, 1⟩
    Up := ⟨0, 1, 0⟩
    FocusMode := Enums.FocusMode.AutoFocus
    FocusUV := ⟨1 / 2, 1 / 2⟩
    FocalDistance := 10
    ApertureShape := Enums.ApertureShape.Polygon
    ApertureSize := 0
    NoApertureBlades := 6
    ApertureAngle := 0
    FOV := 35
    N := ⟨0, 0, 1⟩
    U := ⟨-1, 0, 0⟩
    V := ⟨0, -1, 0⟩ }

/-- The random source whose every draw is `0`. -/
def zeroRNG : RNG := ⟨fun _ => 0⟩

/-- The camera `axisCamera` with an open aperture of size `1`, the aperture shape
`shape` and the focal distance `fd`. -/
noncomputable def lensCamera (shape : Enums.ApertureShape) (fd : ℝ) : Camera :=
  { axisCamera with ApertureSize := 1, ApertureShape := shape, FocalDistance := fd }

/-- A film of resolution `r` with the screen extents `[-1, 1] × [-3/4, 3/4]` and
`InvScreen` = extent size / `(640, 480)`. -/
noncomputable def symFilm (r : Vec2i) : ExposureRender.Film :=
  { Resolution := r, Screen00 := -1, Screen01 := 1, Screen10 := -3 / 4, Screen11 := 3 / 4,
    InvScreen := ⟨2 / 640, (3 / 2) / 480⟩ }

end Camera

/-! ## Tracer -/

namespace Enums

/-- Modelled from the spec: the enumeration `ShadingMode` is not part of the sources
at hand; the spec distinguishes "BRDF-only vs. hybrid with phase function". `Other`
stands for every value that is not `BrdfOnly`. -/
inductive ShadingMode where
  | BrdfOnly
  | Other
deriving DecidableEq, Repr

/-- Modelled from the spec: the enumeration `GradientMode` is not part of the sources
at hand; the spec distinguishes "central-difference vs. alternative gradient
estimators". `Other` stands for every value that is not `CentralDifferences`. -/
inductive GradientMode where
  | CentralDifferences
  | Other
deriving DecidableEq, Repr

/-- Modelled from the spec: the enumeration `AcceleratorType` is not part of the
sources at hand; the spec names the octree. `Other` stands for every value that is
not `Octree`. -/
inductive AcceleratorType where
  | Octree
  | Other
deriving DecidableEq, Repr

end Enums

/-- Members of class `Tracer`. The classes `ScalarTransferFunction1D` and
`ColorTransferFunction1D` are not part of the sources at hand and are the type
parameters `S` and `C`; their values are copied by assignment. `float` is a
rational number here: the members are only stored and copied. -/
structure Tracer (S C : Type) where
  Opacity1D : S
  Diffuse1D : C
  Specular1D : C
  Glossiness1D : S
  IndexOfReflection1D : S
  Emission1D : C
  Shadows : Bool
  ShadingType : Enums.ShadingMode
  DensityScale : ℚ
  OpacityModulated : Bool
  GradientFactor : ℚ
  GradientMode : Enums.GradientMode
  AcceleratorType : Enums.AcceleratorType
  StepFactorPrimary : ℚ
  StepFactorOcclusion : ℚ
deriving DecidableEq, Repr

namespace Tracer

variable {S C : Type}

/-- Default constructor `Tracer()`; `default` is the default-constructed transfer
function. -/
def new [Inhabited S] [Inhabited C] : Tracer S C :=
  { Opacity1D := default
    Diffuse1D := default
    Specular1D := default
    Glossiness1D := default
    IndexOfReflection1D := default
    Emission1D := default
    Shadows := true
    ShadingType := Enums.ShadingMode.BrdfOnly
    DensityScale := 1000
    OpacityModulated := true
    GradientFactor := 1 / 2
    GradientMode := Enums.GradientMode.CentralDifferences
    AcceleratorType := Enums.AcceleratorType.Octree
    StepFactorPrimary := 1
    StepFactorOcclusion := 1 }

/-- Assignment operator `operator = (const Tracer& Other)`: the value of `*this`
after the fifteen member assignments. -/
def assign (this Other : Tracer S C) : Tracer S C :=
  { this with
    Opacity1D := Other.Opacity1D
    Diffuse1D := Other.Diffuse1D
    Specular1D := Other.Specular1D
    Glossiness1D := Other.Glossiness1D
    IndexOfReflection1D := Other.IndexOfReflection1D
    Emission1D := Other.Emission1D
    Shadows := Other.Shadows
    ShadingType := Other.ShadingType
    DensityScale := Other.DensityScale
    OpacityModulated := Other.OpacityModulated
    GradientFactor := Other.GradientFactor
    GradientMode := Other.GradientMode
    AcceleratorType := Other.AcceleratorType
    StepFactorPrimary := Other.StepFactorPrimary
    StepFactorOcclusion := Other.StepFactorOcclusion }

/-- Copy constructor `Tracer(const Tracer& Other)`: the member initialisers (with
`DensityScale(100)`), then `*this = Other`. -/
def copy [Inhabited S] [Inhabited C] (Other : Tracer S C) : Tracer S C :=
  assign
    { Opacity1D := default
      Diffuse1D := default
      Specular1D := default
      Glossiness1D := default
      IndexOfReflection1D := default
      Emission1D := default
      Shadows := true
      ShadingType := Enums.ShadingMode.BrdfOnly
      DensityScale := 100
      OpacityModulated := true
      GradientFactor := 1 / 2
      GradientMode := Enums.GradientMode.CentralDifferences
      AcceleratorType := Enums.AcceleratorType.Octree
      StepFactorPrimary := 1
      StepFactorOcclusion := 1 }
    Other

/-- Modelled from the spec: the macro `GET_SET_MACRO` is not part of the sources at
hand; the spec lists "configuration getters/setters" of fields that are "pure data".
The setter `SetDensityScale` stores its argument in the member. -/
def SetDensityScale (t : Tracer S C) (Value : ℚ) : Tracer S C :=
  { t with DensityScale := Value }

/-- Modelled from the spec: the getter `GetDensityScale` that `GET_SET_MACRO`
declares returns the member. -/
def GetDensityScale (t : Tracer S C) : ℚ := t.DensityScale

end Tracer

/-- Two `Tracer` objects `t1` and `t2` held side by side: the state of a program
fragment that copies one into the other and then changes the copy. -/
structure TracerPair (S C : Type) where
  t1 : Tracer S C
  t2 : Tracer S C

namespace TracerPair

variable {S C : Type}

/-- The statement `t2 = t1;`. The right-hand side is passed by `const` reference
and is not written. -/
def assignT2 (s : TracerPair S C) : TracerPair S C :=
  { s with t2 := s.t2.assign s.t1 }

/-- The declaration `Tracer t2(t1);` replacing the second object by a copy of the
first. -/
def copyT2 [Inhabited S] [Inhabited C] (s : TracerPair S C) : TracerPair S C :=
  { s with t2 := Tracer.copy s.t1 }

/-- The statement `t2.SetDensityScale(Value);`. -/
def setDensityScaleT2 (s : TracerPair S C) (Value : ℚ) : TracerPair S C :=
  { s with t2 := s.t2.SetDensityScale Value }

end TracerPair

/-- A tracer over natural-number stand-ins for the transfer functions, with every
member different from its default. -/
def sampleTracer : Tracer ℕ ℕ :=
  { Opacity1D := 1
    Diffuse1D := 2
    Specular1D := 3
    Glossiness1D := 4
    IndexOfReflection1D := 5
    Emission1D := 6
    Shadows := false
    ShadingType := Enums.ShadingMode.Other
    DensityScale := 7
    OpacityModulated := false
    GradientFactor := 1 / 4
    GradientMode := Enums.GradientMode.Other
    AcceleratorType := Enums.AcceleratorType.Other
    StepFactorPrimary := 2
    StepFactorOcclusion := 3 }

/-! ## Concrete instances -/

/-- A `3 × 2` buffer of rationals holding `1, …, 6` in row-major order. -/
def gridBuffer (fm : Enums.FilterMode) : HostBuffer2D ℚ :=
  { Data := some [1, 2, 3, 4, 5, 6], Resolution := ⟨3, 2⟩, FilterMode := fm,
    AddressMode := Enums.AddressMode.Wrap }

/-- The `3 × 2` buffer `gridBuffer` with the `Linear` filter. -/
def linearGrid : HostBuffer2D ℚ := gridBuffer Enums.FilterMode.Linear

/-- A coordinate outside the `3 × 2` grid on both axes: left of it and above it. -/
def outsidePoint : Vec2f ℚ := ⟨-1 / 2, 7 / 2⟩

/-- A buffer of rationals as the constructor leaves it: never sized, no storage. -/
def emptyBuffer : HostBuffer2D ℚ :=
  HostBuffer2D.new Enums.FilterMode.Linear Enums.AddressMode.Wrap

/-! ## Properties of HostBuffer2D -/

namespace HostBuffer2D

variable {T : Type}

/-! ### Auxiliary facts about clamping and indexing -/

theorem Clamp_eq_max_min (v n : ℤ) (hn : 0 < n) :
    Clamp v 0 (n - 1) = max 0 (min v (n - 1)) := by
  unfold Clamp
  rcases le_total v 0 with h | h <;> rcases le_total v (n - 1) with h' | h' <;>
    simp [h, h'] <;> omega

theorem Clamp_nonneg (v n : ℤ) (hn : 0 < n) : 0 ≤ Clamp v 0 (n - 1) := by
  unfold Clamp
  exact le_min (le_max_right _ _) (by omega)

theorem Clamp_lt (v n : ℤ) : Clamp v 0 (n - 1) < n := by
  unfold Clamp
  have := min_le_right (max v 0) (n - 1)
  omega

theorem Clamp_of_mem (v n : ℤ) (h0 : 0 ≤ v) (h1 : v < n) : Clamp v 0 (n - 1) = v := by
  unfold Clamp
  rw [max_eq_left h0, min_eq_left (by omega)]

theorem Clamp_idem (v n : ℤ) : Clamp (Clamp v 0 (n - 1)) 0 (n - 1) = Clamp v 0 (n - 1) := by
  unfold Clamp
  rcases le_total v 0 with h | h <;> rcases le_total v (n - 1) with h' | h' <;>
    rcases le_total 0 (n - 1) with h'' | h'' <;> simp [h, h', h'']

theorem cell_index_bounds (w h cx cy : ℤ) (hx0 : 0 ≤ cx) (hx1 : cx < w) (hy0 : 0 ≤ cy)
    (hy1 : cy < h) : 0 ≤ cy * w + cx ∧ cy * w + cx < w * h := by
  constructor
  · have : 0 ≤ cy * w := mul_nonneg hy0 (by omega)
    omega
  · have h1 : cy + 1 ≤ h := by omega
    have h2 : (cy + 1) * w ≤ h * w := mul_le_mul_of_nonneg_right h1 (by omega)
    nlinarith

theorem elemAt_eq_read_index (b : HostBuffer2D T) (X Y : ℤ) :
    b.elemAt X Y = b.read (b.index X Y) := rfl

theorem index_bounds (b : HostBuffer2D T) (hw : 0 < b.Resolution.x) (hh : 0 < b.Resolution.y)
    (X Y : ℤ) : 0 ≤ b.index X Y ∧ b.index X Y < b.Resolution.x * b.Resolution.y := by
  unfold index
  exact cell_index_bounds _ _ _ _ (Clamp_nonneg _ _ hw) (Clamp_lt _ _) (Clamp_nonneg _ _ hh)
    (Clamp_lt _ _)

theorem read_of_lt (b : HostBuffer2D T) (d : List T) (hd : b.Data = some d) (i : ℤ)
    (h0 : 0 ≤ i) (h1 : i < (d.length : ℤ)) :
    ∃ v, d[i.toNat]? = some v ∧ b.read i = some v := by
  have hlt : i.toNat < d.length := by omega
  refine ⟨d[i.toNat], ?_, ?_⟩
  · exact List.getElem?_eq_getElem hlt
  · unfold read
    rw [hd]
    simp only [h0, if_true]
    exact List.getElem?_eq_getElem hlt


/-! ### Round trip, clamping and safety of the discrete access -/

theorem gridBuffer_valid (fm : Enums.FilterMode) : (gridBuffer fm).Valid := by
  cases fm <;> exact ⟨by decide, by decide, by decide⟩

theorem SetData_data [Inhabited T] (b : HostBuffer2D T) (hb : b.Valid) (w h : ℤ) (hw : 0 < w)
    (hh : 0 < h) (data : List T) (hd : (data.length : ℤ) = w * h) :
    b.SetData data w h =
      some { Data := some data, Resolution := ⟨w, h⟩, FilterMode := b.FilterMode,
             AddressMode := b.AddressMode } := by
  have hpos : 0 < w * h := mul_pos hw hh
  have hn : (w * h).toNat = data.length := by omega
  obtain ⟨D, R, fm, am⟩ := b
  unfold SetData Resize
  by_cases hR : R = ⟨w, h⟩
  · subst hR
    cases D with
    | none =>
      simp only [Valid] at hb
      have : (0 : ℤ) = w := congrArg Vec2.x hb.symm
      omega
    | some d =>
      simp only [Valid] at hb
      have hdl : d.length = data.length := by omega
      simp [memcpy, GetNoElements, hn, hdl]
  · simp [hR, memcpy, GetNoElements, hn]

/-- C1: after `SetData(data, w, h)` with `w, h > 0` and `w * h` source elements,
the accessors give `Width() = w`, `Height() = h`, and the discrete access at every
in-range `(x, y)` returns exactly `data[y * w + x]`. -/
theorem SetData_roundtrip [Inhabited T] (b : HostBuffer2D T) (hb : b.Valid) (w h : ℤ)
    (hw : 0 < w) (hh : 0 < h) (data : List T) (hd : (data.length : ℤ) = w * h) :
    ∃ b', b.SetData data w h = some b' ∧ b'.Width = w ∧ b'.Height = h ∧
      ∀ x y : ℤ, 0 ≤ x → x < w → 0 ≤ y → y < h →
        ∃ v, data[(y * w + x).toNat]? = some v ∧ b'.elemAt x y = some v := by
  refine ⟨_, SetData_data b hb w h hw hh data hd, rfl, rfl, ?_⟩
  intro x y hx0 hx1 hy0 hy1
  have hb := cell_index_bounds w h x y hx0 hx1 hy0 hy1
  simp only [elemAt, Clamp_of_mem x w hx0 hx1, Clamp_of_mem y h hy0 hy1]
  exact read_of_lt _ data rfl _ hb.1 (by omega)

/-- Witness of C1 on the `3 × 2` data `1, …, 6` written into a fresh buffer. -/
theorem SetData_roundtrip_witness :
    emptyBuffer.Valid ∧ (0 : ℤ) < 3 ∧ (0 : ℤ) < 2 ∧
    ∃ b', emptyBuffer.SetData [1, 2, 3, 4, 5, 6] 3 2 = some b' ∧ b'.Width = 3 ∧ b'.Height = 2 ∧
      ∀ x y : ℤ, 0 ≤ x → x < 3 → 0 ≤ y → y < 2 →
        ∃ v, ([1, 2, 3, 4, 5, 6] : List ℚ)[(y * 3 + x).toNat]? = some v ∧
          b'.elemAt x y = some v :=
  ⟨rfl, by decide, by decide,
    SetData_roundtrip emptyBuffer rfl 3 2 (by decide) (by decide) [1, 2, 3, 4, 5, 6] (by decide)⟩

/-- C2: on a buffer of width `w > 0` and height `h > 0`, whatever the address
mode, both discrete overloads return the element at row-major index
`clamp(y,0,h-1) * w + clamp(x,0,w-1)`; so `at(x, y) = at(clamp x, clamp y)` and
the overloads agree. -/
theorem elemAt_clamping_law (d : List T) (w h : ℤ) (fm : Enums.FilterMode)
    (am : Enums.AddressMode) (hw : 0 < w) (hh : 0 < h) (hd : (d.length : ℤ) = w * h)
    (x y : ℤ) :
    ∃ v, d[(max 0 (min y (h - 1)) * w + max 0 (min x (w - 1))).toNat]? = some v ∧
      (HostBuffer2D.mk (some d) ⟨w, h⟩ fm am).elemAt x y = some v ∧
      (HostBuffer2D.mk (some d) ⟨w, h⟩ fm am).elemAtVec ⟨x, y⟩ = some v ∧
      (HostBuffer2D.mk (some d) ⟨w, h⟩ fm am).elemAt
        (max 0 (min x (w - 1))) (max 0 (min y (h - 1))) = some v := by
  have hb := cell_index_bounds w h _ _ (Clamp_nonneg x w hw) (Clamp_lt x w)
    (Clamp_nonneg y h hh) (Clamp_lt y h)
  obtain ⟨v, hv1, hv2⟩ := read_of_lt (HostBuffer2D.mk (some d) ⟨w, h⟩ fm am) d rfl _ hb.1
    (by omega)
  rw [Clamp_eq_max_min x w hw, Clamp_eq_max_min y h hh] at hv1 hv2
  refine ⟨v, hv1, ?_, ?_, ?_⟩
  · simpa only [elemAt, Clamp_eq_max_min x w hw, Clamp_eq_max_min y h hh] using hv2
  · simpa only [elemAtVec, Clamp_eq_max_min x w hw, Clamp_eq_max_min y h hh] using hv2
  · have ex := Clamp_idem x w
    have ey := Clamp_idem y h
    rw [Clamp_eq_max_min x w hw] at ex
    rw [Clamp_eq_max_min y h hh] at ey
    simpa only [elemAt, ex, ey] using hv2

/-- Witness of C2 on the `3 × 2` grid with address mode `Clamp`, at `(5, -1)`. -/
theorem elemAt_clamping_law_witness :
    (0 : ℤ) < 3 ∧ (0 : ℤ) < 2 ∧
    ∃ v, ([1, 2, 3, 4, 5, 6] : List ℚ)[(max 0 (min (-1) (2 - 1)) * 3 +
        max 0 (min 5 (3 - 1)) : ℤ).toNat]? = some v ∧
      (HostBuffer2D.mk (some [1, 2, 3, 4, 5, 6]) ⟨3, 2⟩ Enums.FilterMode.Linear
        Enums.AddressMode.Clamp).elemAt 5 (-1) = some v ∧
      (HostBuffer2D.mk (some [1, 2, 3, 4, 5, 6]) ⟨3, 2⟩ Enums.FilterMode.Linear
        Enums.AddressMode.Clamp).elemAtVec ⟨5, -1⟩ = some v ∧
      (HostBuffer2D.mk (some [1, 2, 3, 4, 5, 6]) ⟨3, 2⟩ Enums.FilterMode.Linear
        Enums.AddressMode.Clamp).elemAt (max 0 (min 5 (3 - 1))) (max 0 (min (-1) (2 - 1))) =
        some v :=
  ⟨by decide, by decide,
    elemAt_clamping_law [1, 2, 3, 4, 5, 6] 3 2 Enums.FilterMode.Linear Enums.AddressMode.Clamp
      (by decide) (by decide) (by decide) 5 (-1)⟩

/-- C3, as stated, fails: on a buffer that was never sized (no storage, resolution
zero) the index of `at(0, 0)` is not below `width * height` and the read faults. -/
theorem elemAt_unsized_faults :
    emptyBuffer.Valid ∧
    ¬ (0 ≤ emptyBuffer.index 0 0 ∧ emptyBuffer.index 0 0 < emptyBuffer.Width * emptyBuffer.Height) ∧
    emptyBuffer.elemAt 0 0 = none := by
  refine ⟨rfl, ?_, rfl⟩
  decide

/-- C3, amended: on every buffer of positive width and height whose storage holds
`width * height` elements, for all integers `x, y` the index computed by
`at(x, y)` satisfies `0 ≤ index < width * height` and the access returns an
element. -/
theorem elemAt_safe (b : HostBuffer2D T) (hb : b.Valid) (hw : 0 < b.Width) (hh : 0 < b.Height)
    (x y : ℤ) :
    0 ≤ b.index x y ∧ b.index x y < b.Width * b.Height ∧ (b.elemAt x y).isSome = true := by
  have hi := index_bounds b hw hh x y
  refine ⟨hi.1, hi.2, ?_⟩
  obtain ⟨D, R, fm, am⟩ := b
  cases D with
  | none =>
    simp only [Valid] at hb
    have : (0 : ℤ) = R.x := congrArg Vec2.x hb.symm
    simp only [Width] at hw
    omega
  | some d =>
    simp only [Valid] at hb
    obtain ⟨v, -, hv⟩ := read_of_lt (HostBuffer2D.mk (some d) R fm am) d rfl _ hi.1
      (by rw [hb.2.2]; exact hi.2)
    rw [elemAt_eq_read_index, hv]
    rfl


/-- Witness of the amended C3 on the `3 × 2` grid, at `(7, -2)`. -/
theorem elemAt_safe_witness :
    (gridBuffer Enums.FilterMode.Linear).Valid ∧
    0 ≤ (gridBuffer Enums.FilterMode.Linear).index 7 (-2) ∧
    (gridBuffer Enums.FilterMode.Linear).index 7 (-2) <
      (gridBuffer Enums.FilterMode.Linear).Width * (gridBuffer Enums.FilterMode.Linear).Height ∧
    ((gridBuffer Enums.FilterMode.Linear).elemAt 7 (-2)).isSome = true :=
  ⟨gridBuffer_valid _,
    elemAt_safe (gridBuffer Enums.FilterMode.Linear) (gridBuffer_valid _) (by decide) (by decide)
      7 (-2)⟩

/-! ### Continuous access -/

theorem bilinear_at_centre {F : Type} [LinearOrderedField F] [AddCommMonoid T] [Module F T]
    (V0 V1 V2 V3 : T) :
    ((1 : F) - 1 / 2) • (((1 : F) - 1 / 2) • V0 + ((1 : F) / 2) • V1) +
      ((1 : F) / 2) • (((1 : F) - 1 / 2) • V2 + ((1 : F) / 2) • V3) =
    ((1 : F) / 4) • (V0 + V1 + V2 + V3) := by
  have h1 : ((1 : F) - 1 / 2) = 1 / 2 := by norm_num
  have h2 : ((1 : F) / 2) * (1 / 2) = 1 / 4 := by norm_num
  rw [h1]
  simp only [smul_add, smul_smul, h2]
  abel

section Sample

variable {F : Type} [LinearOrderedField F] [FloorRing F] [Inhabited T] [AddCommMonoid T]
  [Module F T]

theorem half_floor (i : ℤ) : ⌊(i : F) + 1 / 2⌋ = i := by
  rw [Int.floor_eq_iff]
  constructor <;> norm_num

theorem half_ceil (i : ℤ) : ⌈(i : F) + 1 / 2⌉ = i + 1 := by
  rw [Int.ceil_eq_iff]
  constructor <;> push_cast <;> norm_num

/-- C4: with storage and the `Linear` filter, for all values `i`, `j` of `int`, the
sample at the lattice point `(i, j)` is exactly `at(i, j)`: every conversion to
`int` is in range, all four fetched elements are that element and the weights of
the other three are zero. Where the buffer is well formed with positive width and
height the access returns an element. -/
theorem sample_linear_lattice (b : HostBuffer2D T) (hd : b.Data.isSome = true)
    (hf : b.FilterMode = Enums.FilterMode.Linear) (i j : ℤ) (hi : InIntRange i)
    (hj : InIntRange j) :
    (InIntRange ⌊(i : F)⌋ ∧ InIntRange ⌈(i : F)⌉ ∧ InIntRange ⌊(j : F)⌋ ∧
      InIntRange ⌈(j : F)⌉) ∧
    b.sample (⟨(i : F), (j : F)⟩ : Vec2f F) false = b.elemAt i j ∧
      (b.Valid → 0 < b.Width → 0 < b.Height → (b.elemAt i j).isSome = true) := by
  refine ⟨⟨by rw [Int.floor_intCast]; exact hi, by rw [Int.ceil_intCast]; exact hi,
    by rw [Int.floor_intCast]; exact hj, by rw [Int.ceil_intCast]; exact hj⟩, ?_, ?_⟩
  · obtain ⟨D, R, fm, am⟩ := b
    cases D with
    | none => simp at hd
    | some d =>
      simp only at hf
      subst hf
      have hx := Clamp_idem i R.x
      have hy := Clamp_idem j R.y
      unfold Clamp at hx hy
      simp only [sample, Int.floor_intCast, Int.ceil_intCast, sub_self, Bool.false_eq_true,
        if_false, sub_zero, one_smul, zero_smul, add_zero]
      simp only [elemAt, Clamp, hx, hy]
      cases (HostBuffer2D.mk (some d) R Enums.FilterMode.Linear am).read
        (min (max j 0) (R.y - 1) * R.x + min (max i 0) (R.x - 1)) <;> rfl
  · intro hv hw hh
    obtain ⟨D, R, fm, am⟩ := b
    cases D with
    | none => simp at hd
    | some d =>
      simp only [Valid] at hv
      have hi := index_bounds (HostBuffer2D.mk (some d) R fm am) hw hh i j
      obtain ⟨v, -, hv2⟩ := read_of_lt (HostBuffer2D.mk (some d) R fm am) d rfl _ hi.1
        (by rw [hv.2.2]; exact hi.2)
      rw [elemAt_eq_read_index, hv2]
      rfl

/-- Witness of C4 on the `3 × 2` grid, at the lattice point `(1, 1)`. -/
theorem sample_linear_lattice_witness :
    InIntRange 1 ∧
    (InIntRange ⌊((1 : ℤ) : ℚ)⌋ ∧ InIntRange ⌈((1 : ℤ) : ℚ)⌉ ∧ InIntRange ⌊((1 : ℤ) : ℚ)⌋ ∧
      InIntRange ⌈((1 : ℤ) : ℚ)⌉) ∧
    (gridBuffer Enums.FilterMode.Linear).sample (⟨((1 : ℤ) : ℚ), ((1 : ℤ) : ℚ)⟩ : Vec2f ℚ) false =
      (gridBuffer Enums.FilterMode.Linear).elemAt 1 1 ∧
    ((gridBuffer Enums.FilterMode.Linear).Valid → 0 < (gridBuffer Enums.FilterMode.Linear).Width →
      0 < (gridBuffer Enums.FilterMode.Linear).Height →
      ((gridBuffer Enums.FilterMode.Linear).elemAt 1 1).isSome = true) :=
  ⟨by decide,
    sample_linear_lattice (gridBuffer Enums.FilterMode.Linear) rfl rfl 1 1 (by decide)
      (by decide)⟩

/-- C5: with storage of `w * h` elements and the `Linear` filter, for
`0 ≤ i < w - 1` and `0 ≤ j < h - 1` the sample at `(i + 1/2, j + 1/2)` is the
arithmetic mean of `at(i,j)`, `at(i+1,j)`, `at(i,j+1)` and `at(i+1,j+1)`. -/
theorem sample_linear_cell_centre (b : HostBuffer2D T) (hv : b.Valid)
    (hd : b.Data.isSome = true) (hf : b.FilterMode = Enums.FilterMode.Linear) (i j : ℤ)
    (hi0 : 0 ≤ i) (hi1 : i < b.Width - 1) (hj0 : 0 ≤ j) (hj1 : j < b.Height - 1) :
    ∃ V0 V1 V2 V3 : T,
      b.elemAt i j = some V0 ∧ b.elemAt (i + 1) j = some V1 ∧
      b.elemAt i (j + 1) = some V2 ∧ b.elemAt (i + 1) (j + 1) = some V3 ∧
      b.sample (⟨(i : F) + 1 / 2, (j : F) + 1 / 2⟩ : Vec2f F) false =
        some (((1 : F) / 4) • (V0 + V1 + V2 + V3)) := by
  obtain ⟨D, R, fm, am⟩ := b
  cases D with
  | none => simp at hd
  | some d =>
    simp only at hf
    subst hf
    simp only [Valid] at hv
    simp only [Width, Height] at hi1 hj1
    have hw : 0 < R.x := by omega
    have hh : 0 < R.y := by omega
    have get : ∀ x y : ℤ, ∃ v,
        (HostBuffer2D.mk (some d) R Enums.FilterMode.Linear am).elemAt x y = some v := by
      intro x y
      have hi := index_bounds (HostBuffer2D.mk (some d) R Enums.FilterMode.Linear am) hw hh x y
      obtain ⟨v, -, hv2⟩ := read_of_lt (HostBuffer2D.mk (some d) R Enums.FilterMode.Linear am)
        d rfl _ hi.1 (by rw [hv.2.2]; exact hi.2)
      exact ⟨v, hv2⟩
    obtain ⟨V0, h0⟩ := get i j
    obtain ⟨V1, h1⟩ := get (i + 1) j
    obtain ⟨V2, h2⟩ := get i (j + 1)
    obtain ⟨V3, h3⟩ := get (i + 1) (j + 1)
    refine ⟨V0, V1, V2, V3, h0, h1, h2, h3, ?_⟩
    have cx0 : min (max i 0) (R.x - 1) = i := by
      rw [max_eq_left hi0, min_eq_left (by omega)]
    have cx1 : min (max (i + 1) 0) (R.x - 1) = i + 1 := by
      rw [max_eq_left (by omega), min_eq_left (by omega)]
    have cy0 : min (max j 0) (R.y - 1) = j := by
      rw [max_eq_left hj0, min_eq_left (by omega)]
    have cy1 : min (max (j + 1) 0) (R.y - 1) = j + 1 := by
      rw [max_eq_left (by omega), min_eq_left (by omega)]
    simp only [sample, Bool.false_eq_true, if_false, half_floor, half_ceil, cx0, cx1, cy0, cy1,
      h0, h1, h2, h3, Option.some_bind, add_sub_cancel_left]
    rw [bilinear_at_centre]

/-- Witness of C5 on the `3 × 2` grid, at the centre of the cell `(0, 0)`. -/
theorem sample_linear_cell_centre_witness :
    (gridBuffer Enums.FilterMode.Linear).Valid ∧
    ∃ V0 V1 V2 V3 : ℚ,
      (gridBuffer Enums.FilterMode.Linear).elemAt 0 0 = some V0 ∧
      (gridBuffer Enums.FilterMode.Linear).elemAt (0 + 1) 0 = some V1 ∧
      (gridBuffer Enums.FilterMode.Linear).elemAt 0 (0 + 1) = some V2 ∧
      (gridBuffer Enums.FilterMode.Linear).elemAt (0 + 1) (0 + 1) = some V3 ∧
      (gridBuffer Enums.FilterMode.Linear).sample
          (⟨((0 : ℤ) : ℚ) + 1 / 2, ((0 : ℤ) : ℚ) + 1 / 2⟩ : Vec2f ℚ) false =
        some (((1 : ℚ) / 4) • (V0 + V1 + V2 + V3)) :=
  ⟨gridBuffer_valid _,
    sample_linear_cell_centre (gridBuffer Enums.FilterMode.Linear) (gridBuffer_valid _) rfl rfl
      0 0 (by decide) (by decide) (by decide) (by decide)⟩

/-- C6: with storage and the `NearestNeighbour` filter, for all values `i`, `j` of
`int`, inside the grid or not, the sample at the integer-aligned coordinate
`(i, j)` is the discrete access `at(i, j)`: both conversions to `int` are in range.
The access returns an element where the buffer is well formed with positive width
and height. -/
theorem sample_nearest_lattice (b : HostBuffer2D T) (hd : b.Data.isSome = true)
    (hf : b.FilterMode = Enums.FilterMode.NearestNeighbour) (i j : ℤ) (hi : InIntRange i)
    (hj : InIntRange j) :
    (InIntRange ⌊(i : F)⌋ ∧ InIntRange ⌊(j : F)⌋) ∧
    b.sample (⟨(i : F), (j : F)⟩ : Vec2f F) false = b.elemAt i j ∧
      (b.Valid → 0 < b.Width → 0 < b.Height → (b.elemAt i j).isSome = true) := by
  refine ⟨⟨by rw [Int.floor_intCast]; exact hi, by rw [Int.floor_intCast]; exact hj⟩, ?_, ?_⟩
  · obtain ⟨D, R, fm, am⟩ := b
    cases D with
    | none => simp at hd
    | some d =>
      simp only at hf
      subst hf
      simp only [sample, Int.floor_intCast, Bool.false_eq_true, if_false]
  · intro hv hw hh
    obtain ⟨D, R, fm, am⟩ := b
    cases D with
    | none => simp at hd
    | some d =>
      simp only [Valid] at hv
      have hi := index_bounds (HostBuffer2D.mk (some d) R fm am) hw hh i j
      obtain ⟨v, -, hv2⟩ := read_of_lt (HostBuffer2D.mk (some d) R fm am) d rfl _ hi.1
        (by rw [hv.2.2]; exact hi.2)
      rw [elemAt_eq_read_index, hv2]
      rfl

/-- Witness of C6 on the `3 × 2` grid, at the out-of-range coordinate `(-4, 9)`. -/
theorem sample_nearest_lattice_witness :
    InIntRange (-4) ∧ InIntRange 9 ∧
    (InIntRange ⌊((-4 : ℤ) : ℚ)⌋ ∧ InIntRange ⌊((9 : ℤ) : ℚ)⌋) ∧
    (gridBuffer Enums.FilterMode.NearestNeighbour).sample
        (⟨((-4 : ℤ) : ℚ), ((9 : ℤ) : ℚ)⟩ : Vec2f ℚ) false =
      (gridBuffer Enums.FilterMode.NearestNeighbour).elemAt (-4) 9 ∧
    ((gridBuffer Enums.FilterMode.NearestNeighbour).Valid →
      0 < (gridBuffer Enums.FilterMode.NearestNeighbour).Width →
      0 < (gridBuffer Enums.FilterMode.NearestNeighbour).Height →
      ((gridBuffer Enums.FilterMode.NearestNeighbour).elemAt (-4) 9).isSome = true) :=
  ⟨by decide, by decide,
    sample_nearest_lattice (gridBuffer Enums.FilterMode.NearestNeighbour) rfl rfl (-4) 9
      (by decide) (by decide)⟩

/-- C7: on a buffer without storage the continuous access returns the default
value `T()` for every coordinate, either value of `Normalized` and every filter
mode. -/
theorem sample_no_storage (b : HostBuffer2D T) (hd : b.Data = none) (XY : Vec2f F)
    (Normalized : Bool) : b.sample XY Normalized = some default := by
  obtain ⟨D, R, fm, am⟩ := b
  simp only at hd
  subst hd
  rfl

/-- Witness of C7 on the never-sized buffer, at the normalized coordinate
`(1/2, 3)`. -/
theorem sample_no_storage_witness :
    emptyBuffer.Data = none ∧
    emptyBuffer.sample (⟨1 / 2, 3⟩ : Vec2f ℚ) true = some default :=
  ⟨rfl, sample_no_storage emptyBuffer rfl ⟨1 / 2, 3⟩ true⟩

end Sample

/-! ### The Linear filter never overshoots -/

theorem bilinear_between {F : Type} [LinearOrderedField F] (du dv V0 V1 V2 V3 : F) (hu0 : 0 ≤ du) (hu1 : du ≤ 1) (hv0 : 0 ≤ dv)
    (hv1 : dv ≤ 1) :
    min (min V0 V1) (min V2 V3) ≤
        (1 - du) * (1 - dv) * V0 + du * (1 - dv) * V1 + (1 - du) * dv * V2 + du * dv * V3 ∧
      (1 - du) * (1 - dv) * V0 + du * (1 - dv) * V1 + (1 - du) * dv * V2 + du * dv * V3 ≤
        max (max V0 V1) (max V2 V3) := by
  have w0 : 0 ≤ (1 - du) * (1 - dv) := mul_nonneg (by linarith) (by linarith)
  have w1 : 0 ≤ du * (1 - dv) := mul_nonneg hu0 (by linarith)
  have w2 : 0 ≤ (1 - du) * dv := mul_nonneg (by linarith) hv0
  have w3 : 0 ≤ du * dv := mul_nonneg hu0 hv0
  have l0 : min (min V0 V1) (min V2 V3) ≤ V0 := le_trans (min_le_left _ _) (min_le_left _ _)
  have l1 : min (min V0 V1) (min V2 V3) ≤ V1 := le_trans (min_le_left _ _) (min_le_right _ _)
  have l2 : min (min V0 V1) (min V2 V3) ≤ V2 := le_trans (min_le_right _ _) (min_le_left _ _)
  have l3 : min (min V0 V1) (min V2 V3) ≤ V3 := le_trans (min_le_right _ _) (min_le_right _ _)
  have u0 : V0 ≤ max (max V0 V1) (max V2 V3) := le_trans (le_max_left _ _) (le_max_left _ _)
  have u1 : V1 ≤ max (max V0 V1) (max V2 V3) := le_trans (le_max_right _ _) (le_max_left _ _)
  have u2 : V2 ≤ max (max V0 V1) (max V2 V3) := le_trans (le_max_left _ _) (le_max_right _ _)
  have u3 : V3 ≤ max (max V0 V1) (max V2 V3) := le_trans (le_max_right _ _) (le_max_right _ _)
  constructor
  · nlinarith [mul_nonneg w0 (sub_nonneg.mpr l0), mul_nonneg w1 (sub_nonneg.mpr l1),
      mul_nonneg w2 (sub_nonneg.mpr l2), mul_nonneg w3 (sub_nonneg.mpr l3)]
  · nlinarith [mul_nonneg w0 (sub_nonneg.mpr u0), mul_nonneg w1 (sub_nonneg.mpr u1),
      mul_nonneg w2 (sub_nonneg.mpr u2), mul_nonneg w3 (sub_nonneg.mpr u3)]

theorem clamp_outside {F : Type} [LinearOrderedField F] [FloorRing F] (x : F) (n : ℤ) (h : x ≤ 0 ∨ (n : F) - 1 ≤ x) :
    min (max ⌈x⌉ 0) (n - 1) = min (max ⌊x⌋ 0) (n - 1) := by
  rcases h with h | h
  · have h1 : ⌈x⌉ ≤ 0 := Int.ceil_le.mpr (by exact_mod_cast h)
    have h2 : ⌊x⌋ ≤ 0 := le_trans (Int.floor_le_ceil x) h1
    rw [max_eq_right h1, max_eq_right h2]
  · have h2 : n - 1 ≤ ⌊x⌋ := Int.le_floor.mpr (by push_cast; exact h)
    have h1 : n - 1 ≤ ⌈x⌉ := le_trans h2 (Int.floor_le_ceil x)
    have a1 : n - 1 ≤ max ⌈x⌉ 0 := le_trans h1 (le_max_left _ _)
    have a2 : n - 1 ≤ max ⌊x⌋ 0 := le_trans h2 (le_max_left _ _)
    rw [min_eq_right a1, min_eq_right a2]

theorem floor_ceil_in_range {F : Type} [LinearOrderedField F] [FloorRing F] (x : F)
    (h : ((INT_MIN : ℤ) : F) ≤ x ∧ x ≤ ((INT_MAX : ℤ) : F)) :
    InIntRange ⌊x⌋ ∧ InIntRange ⌈x⌉ := by
  have h1 : INT_MIN ≤ ⌊x⌋ := Int.le_floor.mpr h.1
  have h2 : ⌈x⌉ ≤ INT_MAX := Int.ceil_le.mpr h.2
  have h3 := Int.floor_le_ceil x
  exact ⟨⟨h1, le_trans h3 h2⟩, ⟨le_trans h1 h3, h2⟩⟩

section LinearSample

variable {F : Type} [LinearOrderedField F] [FloorRing F] [Inhabited F]

/-- C19: on a scalar-valued buffer with storage and positive width and height, for
every coordinate `XY`, normalized or not, with `UV` the coordinate after the optional
scaling lying between `INT_MIN` and `INT_MAX` on each axis (inside the grid or not),
every conversion to `int` is in range and the `Linear` sample is
`(1-du)(1-dv)·V0 + du(1-dv)·V1 + (1-du)dv·V2 + du·dv·V3` for the four fetched
elements, with `du, dv ∈ [0, 1)` taken from the unclamped floor and weights that are
non-negative and sum to `1`; it lies between the minimum and the maximum of the four
elements. Outside the grid on one axis the two elements fetched across that axis
coincide and the sample interpolates the two elements of the nearest edge; outside
the grid on both axes the sample is the element of the nearest corner. -/
theorem sample_linear_convex (b : HostBuffer2D F) (hv : b.Valid) (hd : b.Data.isSome = true)
    (hw : 0 < b.Width) (hh : 0 < b.Height) (hf : b.FilterMode = Enums.FilterMode.Linear)
    (XY : Vec2f F) (Normalized : Bool) (UV : Vec2f F)
    (hUV : UV = if Normalized then XY.mul ⟨(b.Resolution.x : F), (b.Resolution.y : F)⟩ else XY)
    (hx : ((INT_MIN : ℤ) : F) ≤ UV.x ∧ UV.x ≤ ((INT_MAX : ℤ) : F))
    (hy : ((INT_MIN : ℤ) : F) ≤ UV.y ∧ UV.y ≤ ((INT_MAX : ℤ) : F)) :
    (InIntRange ⌊UV.x⌋ ∧ InIntRange ⌈UV.x⌉ ∧ InIntRange ⌊UV.y⌋ ∧ InIntRange ⌈UV.y⌉) ∧
    ∃ V0 V1 V2 V3 du dv : F,
      b.elemAt (min (max ⌊UV.x⌋ 0) (b.Width - 1)) (min (max ⌊UV.y⌋ 0) (b.Height - 1)) = some V0 ∧
      b.elemAt (min (max ⌈UV.x⌉ 0) (b.Width - 1)) (min (max ⌊UV.y⌋ 0) (b.Height - 1)) = some V1 ∧
      b.elemAt (min (max ⌊UV.x⌋ 0) (b.Width - 1)) (min (max ⌈UV.y⌉ 0) (b.Height - 1)) = some V2 ∧
      b.elemAt (min (max ⌈UV.x⌉ 0) (b.Width - 1)) (min (max ⌈UV.y⌉ 0) (b.Height - 1)) = some V3 ∧
      du = UV.x - (⌊UV.x⌋ : F) ∧ dv = UV.y - (⌊UV.y⌋ : F) ∧
      0 ≤ du ∧ du < 1 ∧ 0 ≤ dv ∧ dv < 1 ∧
      0 ≤ (1 - du) * (1 - dv) ∧ 0 ≤ du * (1 - dv) ∧ 0 ≤ (1 - du) * dv ∧ 0 ≤ du * dv ∧
      (1 - du) * (1 - dv) + du * (1 - dv) + (1 - du) * dv + du * dv = 1 ∧
      b.sample XY Normalized =
        some ((1 - du) * (1 - dv) * V0 + du * (1 - dv) * V1 + (1 - du) * dv * V2 +
          du * dv * V3) ∧
      min (min V0 V1) (min V2 V3) ≤
        (1 - du) * (1 - dv) * V0 + du * (1 - dv) * V1 + (1 - du) * dv * V2 + du * dv * V3 ∧
      (1 - du) * (1 - dv) * V0 + du * (1 - dv) * V1 + (1 - du) * dv * V2 + du * dv * V3 ≤
        max (max V0 V1) (max V2 V3) ∧
      ((UV.x ≤ 0 ∨ (b.Width : F) - 1 ≤ UV.x) → V1 = V0 ∧ V3 = V2 ∧
        b.sample XY Normalized = some ((1 - dv) * V0 + dv * V2)) ∧
      ((UV.y ≤ 0 ∨ (b.Height : F) - 1 ≤ UV.y) → V2 = V0 ∧ V3 = V1 ∧
        b.sample XY Normalized = some ((1 - du) * V0 + du * V1)) ∧
      ((UV.x ≤ 0 ∨ (b.Width : F) - 1 ≤ UV.x) → (UV.y ≤ 0 ∨ (b.Height : F) - 1 ≤ UV.y) →
        b.sample XY Normalized = some V0 ∧
        b.elemAt (if UV.x ≤ 0 then 0 else b.Width - 1) (if UV.y ≤ 0 then 0 else b.Height - 1) =
          some V0) := by
  refine ⟨⟨(floor_ceil_in_range UV.x hx).1, (floor_ceil_in_range UV.x hx).2,
    (floor_ceil_in_range UV.y hy).1, (floor_ceil_in_range UV.y hy).2⟩, ?_⟩
  obtain ⟨D, R, fm, am⟩ := b
  cases D with
  | none => simp at hd
  | some d =>
    simp only at hf
    subst hf
    simp only [Valid] at hv
    simp only [Width, Height] at hw hh ⊢
    have get : ∀ x y : ℤ, ∃ v,
        (HostBuffer2D.mk (some d) R Enums.FilterMode.Linear am).elemAt x y = some v := by
      intro x y
      have hi := index_bounds (HostBuffer2D.mk (some d) R Enums.FilterMode.Linear am) hw hh x y
      obtain ⟨v, -, hv2⟩ := read_of_lt (HostBuffer2D.mk (some d) R Enums.FilterMode.Linear am)
        d rfl _ hi.1 (by rw [hv.2.2]; exact hi.2)
      exact ⟨v, hv2⟩
    obtain ⟨V0, h0⟩ := get (min (max ⌊UV.x⌋ 0) (R.x - 1)) (min (max ⌊UV.y⌋ 0) (R.y - 1))
    obtain ⟨V1, h1⟩ := get (min (max ⌈UV.x⌉ 0) (R.x - 1)) (min (max ⌊UV.y⌋ 0) (R.y - 1))
    obtain ⟨V2, h2⟩ := get (min (max ⌊UV.x⌋ 0) (R.x - 1)) (min (max ⌈UV.y⌉ 0) (R.y - 1))
    obtain ⟨V3, h3⟩ := get (min (max ⌈UV.x⌉ 0) (R.x - 1)) (min (max ⌈UV.y⌉ 0) (R.y - 1))
    have hu0 : 0 ≤ UV.x - (⌊UV.x⌋ : F) := sub_nonneg.mpr (Int.floor_le _)
    have hu1 : UV.x - (⌊UV.x⌋ : F) < 1 := sub_lt_iff_lt_add'.mpr (Int.lt_floor_add_one _)
    have hv0 : 0 ≤ UV.y - (⌊UV.y⌋ : F) := sub_nonneg.mpr (Int.floor_le _)
    have hv1 : UV.y - (⌊UV.y⌋ : F) < 1 := sub_lt_iff_lt_add'.mpr (Int.lt_floor_add_one _)
    have hs : (HostBuffer2D.mk (some d) R Enums.FilterMode.Linear am).sample XY Normalized =
        some ((1 - (UV.x - (⌊UV.x⌋ : F))) * (1 - (UV.y - (⌊UV.y⌋ : F))) * V0 +
          (UV.x - (⌊UV.x⌋ : F)) * (1 - (UV.y - (⌊UV.y⌋ : F))) * V1 +
          (1 - (UV.x - (⌊UV.x⌋ : F))) * (UV.y - (⌊UV.y⌋ : F)) * V2 +
          (UV.x - (⌊UV.x⌋ : F)) * (UV.y - (⌊UV.y⌋ : F)) * V3) := by
      simp only [sample]
      rw [← hUV]
      simp only [h0, h1, h2, h3, Option.some_bind, smul_eq_mul]
      congr 1
      ring
    have hb := bilinear_between _ _ V0 V1 V2 V3 hu0 hu1.le hv0 hv1.le
    have ex : (UV.x ≤ 0 ∨ (R.x : F) - 1 ≤ UV.x) → V1 = V0 ∧ V3 = V2 ∧
        (HostBuffer2D.mk (some d) R Enums.FilterMode.Linear am).sample XY Normalized =
          some ((1 - (UV.y - (⌊UV.y⌋ : F))) * V0 + (UV.y - (⌊UV.y⌋ : F)) * V2) := by
      intro hx
      have e := clamp_outside UV.x R.x hx
      have e1 : V1 = V0 := by
        rw [e] at h1
        exact Option.some.inj (h1.symm.trans h0)
      have e3 : V3 = V2 := by
        rw [e] at h3
        exact Option.some.inj (h3.symm.trans h2)
      refine ⟨e1, e3, ?_⟩
      rw [hs, e1, e3]
      congr 1
      ring
    have ey : (UV.y ≤ 0 ∨ (R.y : F) - 1 ≤ UV.y) → V2 = V0 ∧ V3 = V1 ∧
        (HostBuffer2D.mk (some d) R Enums.FilterMode.Linear am).sample XY Normalized =
          some ((1 - (UV.x - (⌊UV.x⌋ : F))) * V0 + (UV.x - (⌊UV.x⌋ : F)) * V1) := by
      intro hy
      have e := clamp_outside UV.y R.y hy
      have e2 : V2 = V0 := by
        rw [e] at h2
        exact Option.some.inj (h2.symm.trans h0)
      have e3 : V3 = V1 := by
        rw [e] at h3
        exact Option.some.inj (h3.symm.trans h1)
      refine ⟨e2, e3, ?_⟩
      rw [hs, e2, e3]
      congr 1
      ring
    refine ⟨V0, V1, V2, V3, UV.x - (⌊UV.x⌋ : F), UV.y - (⌊UV.y⌋ : F), h0, h1, h2, h3, rfl, rfl,
      hu0, hu1, hv0, hv1, mul_nonneg (by linarith) (by linarith), mul_nonneg hu0 (by linarith),
      mul_nonneg (by linarith) hv0, mul_nonneg hu0 hv0, by ring, hs, hb.1, hb.2, ex, ey, ?_⟩
    intro hox hoy
    obtain ⟨e1, e3, -⟩ := ex hox
    obtain ⟨e2, -, -⟩ := ey hoy
    constructor
    · rw [hs, e3, e1, e2]
      congr 1
      ring
    · have cx : (if UV.x ≤ 0 then 0 else R.x - 1) = min (max ⌊UV.x⌋ 0) (R.x - 1) := by
        by_cases hx0 : UV.x ≤ 0
        · have h2 : ⌊UV.x⌋ ≤ 0 := Int.floor_le_iff.mpr (by push_cast; linarith)
          rw [if_pos hx0, max_eq_right h2, min_eq_left (by omega)]
        · have hx1 : (R.x : F) - 1 ≤ UV.x := hox.resolve_left hx0
          have h2 : R.x - 1 ≤ ⌊UV.x⌋ := Int.le_floor.mpr (by push_cast; exact hx1)
          rw [if_neg hx0, min_eq_right (le_trans h2 (le_max_left _ _))]
      have cy : (if UV.y ≤ 0 then 0 else R.y - 1) = min (max ⌊UV.y⌋ 0) (R.y - 1) := by
        by_cases hy0 : UV.y ≤ 0
        · have h2 : ⌊UV.y⌋ ≤ 0 := Int.floor_le_iff.mpr (by push_cast; linarith)
          rw [if_pos hy0, max_eq_right h2, min_eq_left (by omega)]
        · have hy1 : (R.y : F) - 1 ≤ UV.y := hoy.resolve_left hy0
          have h2 : R.y - 1 ≤ ⌊UV.y⌋ := Int.le_floor.mpr (by push_cast; exact hy1)
          rw [if_neg hy0, min_eq_right (le_trans h2 (le_max_left _ _))]
      rw [cx, cy]
      exact h0

/-- Witness of C19 on the `3 × 2` grid at the coordinate `(-1/2, 7/2)`, outside the
grid on both axes. -/
theorem sample_linear_convex_witness :
    linearGrid.Valid ∧
    (InIntRange ⌊outsidePoint.x⌋ ∧ InIntRange ⌈outsidePoint.x⌉ ∧ InIntRange ⌊outsidePoint.y⌋ ∧
      InIntRange ⌈outsidePoint.y⌉) ∧
    ∃ V0 V1 V2 V3 du dv : ℚ,
      linearGrid.elemAt (min (max ⌊outsidePoint.x⌋ 0) (linearGrid.Width - 1))
        (min (max ⌊outsidePoint.y⌋ 0) (linearGrid.Height - 1)) = some V0 ∧
      linearGrid.elemAt (min (max ⌈outsidePoint.x⌉ 0) (linearGrid.Width - 1))
        (min (max ⌊outsidePoint.y⌋ 0) (linearGrid.Height - 1)) = some V1 ∧
      linearGrid.elemAt (min (max ⌊outsidePoint.x⌋ 0) (linearGrid.Width - 1))
        (min (max ⌈outsidePoint.y⌉ 0) (linearGrid.Height - 1)) = some V2 ∧
      linearGrid.elemAt (min (max ⌈outsidePoint.x⌉ 0) (linearGrid.Width - 1))
        (min (max ⌈outsidePoint.y⌉ 0) (linearGrid.Height - 1)) = some V3 ∧
      du = outsidePoint.x - (⌊outsidePoint.x⌋ : ℚ) ∧ dv = outsidePoint.y - (⌊outsidePoint.y⌋ : ℚ) ∧
      0 ≤ du ∧ du < 1 ∧ 0 ≤ dv ∧ dv < 1 ∧
      0 ≤ (1 - du) * (1 - dv) ∧ 0 ≤ du * (1 - dv) ∧ 0 ≤ (1 - du) * dv ∧ 0 ≤ du * dv ∧
      (1 - du) * (1 - dv) + du * (1 - dv) + (1 - du) * dv + du * dv = 1 ∧
      linearGrid.sample outsidePoint false =
        some ((1 - du) * (1 - dv) * V0 + du * (1 - dv) * V1 + (1 - du) * dv * V2 +
          du * dv * V3) ∧
      min (min V0 V1) (min V2 V3) ≤
        (1 - du) * (1 - dv) * V0 + du * (1 - dv) * V1 + (1 - du) * dv * V2 + du * dv * V3 ∧
      (1 - du) * (1 - dv) * V0 + du * (1 - dv) * V1 + (1 - du) * dv * V2 + du * dv * V3 ≤
        max (max V0 V1) (max V2 V3) ∧
      ((outsidePoint.x ≤ 0 ∨ (linearGrid.Width : ℚ) - 1 ≤ outsidePoint.x) → V1 = V0 ∧ V3 = V2 ∧
        linearGrid.sample outsidePoint false = some ((1 - dv) * V0 + dv * V2)) ∧
      ((outsidePoint.y ≤ 0 ∨ (linearGrid.Height : ℚ) - 1 ≤ outsidePoint.y) → V2 = V0 ∧ V3 = V1 ∧
        linearGrid.sample outsidePoint false = some ((1 - du) * V0 + du * V1)) ∧
      ((outsidePoint.x ≤ 0 ∨ (linearGrid.Width : ℚ) - 1 ≤ outsidePoint.x) →
        (outsidePoint.y ≤ 0 ∨ (linearGrid.Height : ℚ) - 1 ≤ outsidePoint.y) →
        linearGrid.sample outsidePoint false = some V0 ∧
        linearGrid.elemAt (if outsidePoint.x ≤ 0 then 0 else linearGrid.Width - 1)
          (if outsidePoint.y ≤ 0 then 0 else linearGrid.Height - 1) =
          some V0) :=
  ⟨gridBuffer_valid _,
    sample_linear_convex linearGrid (gridBuffer_valid _) rfl (by decide) (by decide) rfl
      outsidePoint false outsidePoint rfl (by norm_num [INT_MIN, INT_MAX, outsidePoint])
      (by norm_num [INT_MIN, INT_MAX, outsidePoint])⟩

end LinearSample

/-- C8: `AspectRatio()` is `0` when the width is `0`, whatever the height, and is
`height / width` for positive width and height. -/
theorem AspectRatio_spec {F : Type} [LinearOrderedField F] (b : HostBuffer2D T) :
    (b.Width = 0 → (b.AspectRatio : F) = 0) ∧
    (0 < b.Width → 0 < b.Height → (b.AspectRatio : F) = (b.Height : F) / (b.Width : F)) := by
  constructor
  · intro h
    simp [AspectRatio, h]
  · intro hw _
    have : ((b.Width : ℤ) : F) ≠ 0 := by
      have : b.Width ≠ 0 := by omega
      exact_mod_cast this
    simp [AspectRatio, this]

/-- Witness of C8 on the never-sized buffer (width `0`) and on the `3 × 2` grid. -/
theorem AspectRatio_spec_witness :
    (emptyBuffer.AspectRatio : ℚ) = 0 ∧
    ((gridBuffer Enums.FilterMode.Linear).AspectRatio : ℚ) =
      (((gridBuffer Enums.FilterMode.Linear).Height : ℤ) : ℚ) /
        (((gridBuffer Enums.FilterMode.Linear).Width : ℤ) : ℚ) :=
  ⟨(AspectRatio_spec emptyBuffer).1 rfl,
    (AspectRatio_spec (gridBuffer Enums.FilterMode.Linear)).2 (by decide) (by decide)⟩

end HostBuffer2D

/-! ## Properties of the camera -/

theorem Vec3f.add_def (a b : Vec3f) : a + b = ⟨a.x + b.x, a.y + b.y, a.z + b.z⟩ := rfl

theorem Vec3f.sub_def (a b : Vec3f) : a - b = ⟨a.x - b.x, a.y - b.y, a.z - b.z⟩ := rfl

theorem Vec3f.mul_def (a : Vec3f) (f : ℝ) : a * f = ⟨a.x * f, a.y * f, a.z * f⟩ := rfl

theorem Vec3f.smul_def (f : ℝ) (a : Vec3f) : f * a = ⟨a.x * f, a.y * f, a.z * f⟩ := rfl

theorem Dot_self_nonneg (a : Vec3f) : 0 ≤ Dot a a := by
  unfold Dot
  nlinarith [mul_self_nonneg a.x, mul_self_nonneg a.y, mul_self_nonneg a.z]

theorem Dot_self_pos_of_ne (a : Vec3f) (h : a ≠ Vec3f.splat 0) : 0 < Dot a a := by
  rcases (Dot_self_nonneg a).lt_or_eq with h' | h'
  · exact h'
  · exfalso
    apply h
    unfold Dot at h'
    have hx : a.x = 0 := by
      nlinarith [mul_self_nonneg a.x, mul_self_nonneg a.y, mul_self_nonneg a.z]
    have hy : a.y = 0 := by
      nlinarith [mul_self_nonneg a.x, mul_self_nonneg a.y, mul_self_nonneg a.z]
    have hz : a.z = 0 := by
      nlinarith [mul_self_nonneg a.x, mul_self_nonneg a.y, mul_self_nonneg a.z]
    exact Vec3f.ext hx hy hz

theorem Length_mul_self (a : Vec3f) : Length a * Length a = Dot a a :=
  Real.mul_self_sqrt (Dot_self_nonneg a)

theorem Length_pos (a : Vec3f) (h : 0 < Dot a a) : 0 < Length a := Real.sqrt_pos.mpr h

theorem Length_eq_one (a : Vec3f) (h : Dot a a = 1) : Length a = 1 := by
  unfold Length
  rw [h, Real.sqrt_one]

theorem Dot_Normalize_self (a : Vec3f) (h : 0 < Dot a a) :
    Dot (Normalize a) (Normalize a) = 1 := by
  have hL := Length_pos a h
  have hLL := Length_mul_self a
  have key : Dot (Normalize a) (Normalize a) = Dot a a / (Length a * Length a) := by
    simp only [Dot, Normalize]
    field_simp
  rw [key, hLL]
  exact div_self h.ne'

theorem Dot_Normalize_right (a b : Vec3f) : Dot a (Normalize b) = Dot a b / Length b := by
  simp only [Dot, Normalize]
  ring

theorem Dot_Cross_left (a b : Vec3f) : Dot a (Cross a b) = 0 := by
  simp only [Dot, Cross]
  ring

theorem Dot_Cross_right (a b : Vec3f) : Dot b (Cross a b) = 0 := by
  simp only [Dot, Cross]
  ring

theorem Dot_Cross_self (a b : Vec3f) :
    Dot (Cross a b) (Cross a b) = Dot a a * Dot b b - Dot a b * Dot a b := by
  simp only [Dot, Cross]
  ring

theorem Dot_Cross_Normalize (a b : Vec3f) (h : 0 < Dot a a) :
    Dot (Cross (Normalize a) b) (Cross (Normalize a) b) =
      Dot (Cross a b) (Cross a b) / Dot a a := by
  have hL := Length_pos a h
  rw [← Length_mul_self a]
  simp only [Dot, Cross, Normalize]
  field_simp

/-! ### Inner products of the vectors `Sample` builds -/

theorem Dot_splat_zero_left (b : Vec3f) : Dot (Vec3f.splat 0) b = 0 := by
  simp [Dot, Vec3f.splat]

theorem Dot_Normalize_left (a b : Vec3f) : Dot (Normalize a) b = Dot a b / Length a := by
  simp only [Dot, Normalize]
  ring

theorem Length_Normalize (a : Vec3f) (h : 0 < Dot a a) : Length (Normalize a) = 1 :=
  Length_eq_one _ (Dot_Normalize_self a h)

theorem Normalize_mul_Length (a : Vec3f) (h : 0 < Dot a a) : Normalize a * Length a = a := by
  have hL := (Length_pos a h).ne'
  simp only [Normalize, Vec3f.mul_def]
  ext <;> field_simp

theorem Dot_screen_self (N U V : Vec3f) (a b : ℝ) :
    Dot (N + a * U - b * V) (N + a * U - b * V) =
      Dot N N + a * a * Dot U U + b * b * Dot V V + 2 * a * Dot N U - 2 * b * Dot N V -
        2 * a * b * Dot U V := by
  simp only [Dot, Vec3f.add_def, Vec3f.sub_def, Vec3f.smul_def]
  ring

theorem Dot_screen (N U V W : Vec3f) (a b : ℝ) :
    Dot (N + a * U - b * V) W = Dot N W + a * Dot U W - b * Dot V W := by
  simp only [Dot, Vec3f.add_def, Vec3f.sub_def, Vec3f.smul_def]
  ring

theorem Dot_lens (D U V W : Vec3f) (f lx ly : ℝ) :
    Dot (D * f - (U * lx + V * ly)) W = f * Dot D W - lx * Dot U W - ly * Dot V W := by
  simp only [Dot, Vec3f.add_def, Vec3f.sub_def, Vec3f.mul_def]
  ring

theorem Dot_symm (a b : Vec3f) : Dot a b = Dot b a := by
  simp only [Dot]
  ring

theorem Normalize_of_unit (a : Vec3f) (h : Dot a a = 1) : Normalize a = a := by
  have hL := Length_eq_one a h
  simp only [Normalize, hL, div_one]

theorem Normalize_mul_pos (a : Vec3f) (h : Dot a a = 1) (f : ℝ) (hf : 0 < f) :
    Normalize (a * f) = a := by
  have hd : Dot (a * f) (a * f) = f ^ 2 := by
    have : Dot (a * f) (a * f) = f ^ 2 * Dot a a := by
      simp only [Dot, Vec3f.mul_def]
      ring
    rw [this, h, mul_one]
  have hL : Length (a * f) = f := by
    unfold Length
    rw [hd]
    exact Real.sqrt_sq hf.le
  simp only [Normalize, hL]
  simp only [Vec3f.mul_def]
  ext <;> field_simp

theorem sub_zero_lens (a U V : Vec3f) : a - (U * (0 : ℝ) + V * (0 : ℝ)) = a := by
  simp only [Vec3f.mul_def, Vec3f.add_def, Vec3f.sub_def]
  ext <;> simp

theorem add_zero_lens (a U V : Vec3f) : a + (U * (0 : ℝ) + V * (0 : ℝ)) = a := by
  simp only [Vec3f.mul_def, Vec3f.add_def]
  ext <;> simp

theorem screen_zero (N U V : Vec3f) : N + (0 : ℝ) * U - (0 : ℝ) * V = N := by
  simp only [Vec3f.smul_def, Vec3f.add_def, Vec3f.sub_def]
  ext <;> simp

namespace Camera

/-- C9: after `Update()`, when `Pos ≠ Target` and `Up` is not parallel to
`Target - Pos`, the vectors `N`, `U`, `V` have length one and are pairwise
orthogonal, with `N = normalize(Target - Pos)`, `U = normalize(N × Up)` and
`V = normalize(N × U)`. -/
theorem Update_orthonormal (FilmUpdate : ExposureRender.Film → ℝ → ExposureRender.Film)
    (c : Camera) (hPT : c.Pos ≠ c.Target)
    (hUp : Cross (c.Target - c.Pos) c.Up ≠ Vec3f.splat 0) :
    Length (c.Update FilmUpdate).N = 1 ∧ Length (c.Update FilmUpdate).U = 1 ∧
    Length (c.Update FilmUpdate).V = 1 ∧
    Dot (c.Update FilmUpdate).N (c.Update FilmUpdate).U = 0 ∧
    Dot (c.Update FilmUpdate).N (c.Update FilmUpdate).V = 0 ∧
    Dot (c.Update FilmUpdate).U (c.Update FilmUpdate).V = 0 ∧
    (c.Update FilmUpdate).N = Normalize (c.Target - c.Pos) ∧
    (c.Update FilmUpdate).U = Normalize (Cross (c.Update FilmUpdate).N c.Up) ∧
    (c.Update FilmUpdate).V =
      Normalize (Cross (c.Update FilmUpdate).N (c.Update FilmUpdate).U) := by
  have hd : c.Target - c.Pos ≠ Vec3f.splat 0 := by
    intro h
    apply hPT
    have hx := congrArg Vec3f.x h
    have hy := congrArg Vec3f.y h
    have hz := congrArg Vec3f.z h
    simp only [Vec3f.sub_def, Vec3f.splat] at hx hy hz
    exact Vec3f.ext (by linarith) (by linarith) (by linarith)
  have hd0 := Dot_self_pos_of_ne _ hd
  have hNN := Dot_Normalize_self _ hd0
  have hc0 := Dot_self_pos_of_ne _ hUp
  have hcu : 0 < Dot (Cross (Normalize (c.Target - c.Pos)) c.Up)
      (Cross (Normalize (c.Target - c.Pos)) c.Up) := by
    rw [Dot_Cross_Normalize _ _ hd0]
    exact div_pos hc0 hd0
  have hUU := Dot_Normalize_self _ hcu
  have hNU : Dot (Normalize (c.Target - c.Pos))
      (Normalize (Cross (Normalize (c.Target - c.Pos)) c.Up)) = 0 := by
    rw [Dot_Normalize_right, Dot_Cross_left, zero_div]
  have hcv : Dot (Cross (Normalize (c.Target - c.Pos))
        (Normalize (Cross (Normalize (c.Target - c.Pos)) c.Up)))
      (Cross (Normalize (c.Target - c.Pos))
        (Normalize (Cross (Normalize (c.Target - c.Pos)) c.Up))) = 1 := by
    rw [Dot_Cross_self, hNN, hUU, hNU]
    norm_num
  have hVV := Dot_Normalize_self _ (by rw [hcv]; exact one_pos)
  refine ⟨Length_eq_one _ hNN, Length_eq_one _ hUU, Length_eq_one _ hVV, hNU, ?_, ?_,
    rfl, rfl, rfl⟩
  · show Dot (Normalize (c.Target - c.Pos)) (Normalize _) = 0
    rw [Dot_Normalize_right, Dot_Cross_left, zero_div]
  · show Dot (Normalize (Cross (Normalize (c.Target - c.Pos)) c.Up)) (Normalize _) = 0
    rw [Dot_Normalize_right, Dot_Cross_right, zero_div]

theorem axisCamera_Pos_ne_Target : axisCamera.Pos ≠ axisCamera.Target := by
  intro h
  have hz := congrArg Vec3f.z h
  simp [axisCamera] at hz

theorem axisCamera_Up_not_parallel :
    Cross (axisCamera.Target - axisCamera.Pos) axisCamera.Up ≠ Vec3f.splat 0 := by
  intro h
  have hx := congrArg Vec3f.x h
  simp [axisCamera, Cross, Vec3f.sub_def, Vec3f.splat] at hx

/-- Witness of C9 on the camera at the origin looking along `+z` with `Up = +y`. -/
theorem Update_orthonormal_witness :
    axisCamera.Pos ≠ axisCamera.Target ∧
    Cross (axisCamera.Target - axisCamera.Pos) axisCamera.Up ≠ Vec3f.splat 0 ∧
    Length (axisCamera.Update (fun f _ => f)).N = 1 ∧
    Length (axisCamera.Update (fun f _ => f)).U = 1 ∧
    Length (axisCamera.Update (fun f _ => f)).V = 1 ∧
    Dot (axisCamera.Update (fun f _ => f)).N (axisCamera.Update (fun f _ => f)).U = 0 ∧
    Dot (axisCamera.Update (fun f _ => f)).N (axisCamera.Update (fun f _ => f)).V = 0 ∧
    Dot (axisCamera.Update (fun f _ => f)).U (axisCamera.Update (fun f _ => f)).V = 0 ∧
    (axisCamera.Update (fun f _ => f)).N = Normalize (axisCamera.Target - axisCamera.Pos) ∧
    (axisCamera.Update (fun f _ => f)).U =
      Normalize (Cross (axisCamera.Update (fun f _ => f)).N axisCamera.Up) ∧
    (axisCamera.Update (fun f _ => f)).V =
      Normalize (Cross (axisCamera.Update (fun f _ => f)).N
        (axisCamera.Update (fun f _ => f)).U) :=
  ⟨axisCamera_Pos_ne_Target, axisCamera_Up_not_parallel,
    Update_orthonormal (fun f _ => f) axisCamera axisCamera_Pos_ne_Target
      axisCamera_Up_not_parallel⟩

theorem sqrt_nine : Real.sqrt 9 = 3 := by
  rw [show (9 : ℝ) = 3 ^ 2 by norm_num]
  exact Real.sqrt_sq (by norm_num)

/-- C10 fails on the code: for `axisCamera` (orthonormal basis, as `Update()`
leaves it, zero aperture, screen extents `[-4, 4]²`, `InvScreen` = extent size /
resolution) the ray sampled for the pixel `(6, 6)` with zero jitter has
`ImageUV = (6, 6)`, and the point at `t = 3` on it is projected to `(38/9, 38/9)`,
not to `(6, 6)`. -/
theorem ProjectPointToFilmPlane_not_inverse (disk : Vec2f ℝ → Vec2f ℝ) :
    (axisCamera.Update (fun f _ => f)).N = axisCamera.N ∧
    (axisCamera.Update (fun f _ => f)).U = axisCamera.U ∧
    (axisCamera.Update (fun f _ => f)).V = axisCamera.V ∧
    (axisCamera.Sample disk ⟨6, 6⟩ zeroRNG).1.ImageUV = ⟨6, 6⟩ ∧
    axisCamera.ProjectPointToFilmPlane
        ((axisCamera.Sample disk ⟨6, 6⟩ zeroRNG).1.O +
          (axisCamera.Sample disk ⟨6, 6⟩ zeroRNG).1.D * (3 : ℝ)) ⟨0, 0⟩ =
      (true, ⟨38 / 9, 38 / 9⟩) ∧
    (axisCamera.ProjectPointToFilmPlane
        ((axisCamera.Sample disk ⟨6, 6⟩ zeroRNG).1.O +
          (axisCamera.Sample disk ⟨6, 6⟩ zeroRNG).1.D * (3 : ℝ)) ⟨0, 0⟩).2 ≠
      (axisCamera.Sample disk ⟨6, 6⟩ zeroRNG).1.ImageUV := by
  have hS : (axisCamera.Sample disk ⟨6, 6⟩ zeroRNG).1 =
      { O := ⟨0, 0, 0⟩, D := ⟨-2 / 3, 2 / 3, 1 / 3⟩, MinT := -1000, MaxT := 1000,
        ImageUV := ⟨6, 6⟩ } := by
    simp only [Sample, axisCamera, zeroRNG, RNG.Get1, Normalize, Length, Dot, Vec3f.add_def,
      Vec3f.sub_def, Vec3f.smul_def, Vec3f.mul_def]
    norm_num
    rw [sqrt_nine]
    norm_num
  have hP : axisCamera.ProjectPointToFilmPlane
      ((axisCamera.Sample disk ⟨6, 6⟩ zeroRNG).1.O +
        (axisCamera.Sample disk ⟨6, 6⟩ zeroRNG).1.D * (3 : ℝ)) ⟨0, 0⟩ =
      (true, ⟨38 / 9, 38 / 9⟩) := by
    rw [hS]
    simp only [ProjectPointToFilmPlane, axisCamera, Normalize, Length, Dot, Vec3f.add_def,
      Vec3f.sub_def, Vec3f.mul_def, Film.GetResolution]
    norm_num
    rw [sqrt_nine]
    norm_num
  refine ⟨?_, ?_, ?_, ?_, hP, ?_⟩
  · simp [Update, axisCamera, Normalize, Length, Dot, Cross, Vec3f.sub_def]
  · simp [Update, axisCamera, Normalize, Length, Dot, Cross, Vec3f.sub_def]
  · simp [Update, axisCamera, Normalize, Length, Dot, Cross, Vec3f.sub_def]
  · rw [hS]
  · rw [hP, hS]
    intro h
    have hx := congrArg Vec2.x h
    norm_num at hx

/-! ### Sampling a ray -/

theorem Sample_pinhole_eq (c : Camera) (disk : Vec2f ℝ → Vec2f ℝ) (UV : Vec2i) (rng : RNG)
    (hA : c.ApertureSize = 0) :
    c.Sample disk UV rng =
      ({ O := c.Pos
         D := c.PinholeD ((UV.x : ℝ) + rng.draws 0) ((UV.y : ℝ) + rng.draws 1)
         MinT := -1000
         MaxT := 1000
         ImageUV := ⟨(UV.x : ℝ) + rng.draws 0, (UV.y : ℝ) + rng.draws 1⟩ },
       ⟨fun n => rng.draws (n + 1 + 1)⟩) := by
  simp only [Sample, hA, ne_eq, not_true_eq_false, if_false, RNG.Get1, PinholeD, ScreenPoint]

/-- C11: in pinhole mode (`ApertureSize == 0`) the ray `Sample` returns is the same
for any two random sources whose first two draws agree (and for any lens sampler);
its origin is `Pos`, its direction is `normalize(N + sx*U - sy*V)` for the screen
point `(sx, sy)` of the jittered pixel, and the random source is left advanced by
exactly the two jitter draws. -/
theorem Sample_pinhole_deterministic (c : Camera) (disk1 disk2 : Vec2f ℝ → Vec2f ℝ) (UV : Vec2i)
    (rng1 rng2 : RNG) (hA : c.ApertureSize = 0) (h0 : rng1.draws 0 = rng2.draws 0)
    (h1 : rng1.draws 1 = rng2.draws 1) :
    (c.Sample disk1 UV rng1).1 = (c.Sample disk2 UV rng2).1 ∧
    (c.Sample disk1 UV rng1).1.O = c.Pos ∧
    (c.Sample disk1 UV rng1).1.D =
      Normalize (c.N +
        (c.Film.Screen00 + c.Film.InvScreen.x * ((UV.x : ℝ) + rng1.draws 0)) * c.U -
        (c.Film.Screen10 + c.Film.InvScreen.y * ((UV.y : ℝ) + rng1.draws 1)) * c.V) ∧
    ∀ n : ℕ, (c.Sample disk1 UV rng1).2.draws n = rng1.draws (n + 2) := by
  rw [Sample_pinhole_eq c disk1 UV rng1 hA, Sample_pinhole_eq c disk2 UV rng2 hA, h0, h1]
  exact ⟨rfl, rfl, rfl, fun _ => rfl⟩

/-- Witness of C11 on `axisCamera`, pixel `(6, 6)`, for the all-zero source and a
source that differs from it from the third draw on. -/
theorem Sample_pinhole_deterministic_witness :
    (axisCamera.Sample (fun v => v) ⟨6, 6⟩ zeroRNG).1 =
      (axisCamera.Sample (fun _ => ⟨1, 1⟩) ⟨6, 6⟩ ⟨fun n => if n < 2 then 0 else 1 / 2⟩).1 ∧
    (axisCamera.Sample (fun v => v) ⟨6, 6⟩ zeroRNG).1.O = axisCamera.Pos ∧
    (axisCamera.Sample (fun v => v) ⟨6, 6⟩ zeroRNG).1.D =
      Normalize (axisCamera.N +
        (axisCamera.Film.Screen00 +
          axisCamera.Film.InvScreen.x * (((6 : ℤ) : ℝ) + zeroRNG.draws 0)) * axisCamera.U -
        (axisCamera.Film.Screen10 +
          axisCamera.Film.InvScreen.y * (((6 : ℤ) : ℝ) + zeroRNG.draws 1)) * axisCamera.V) ∧
    ∀ n : ℕ, (axisCamera.Sample (fun v => v) ⟨6, 6⟩ zeroRNG).2.draws n = zeroRNG.draws (n + 2) :=
  Sample_pinhole_deterministic axisCamera (fun v => v) (fun _ => ⟨1, 1⟩) ⟨6, 6⟩ zeroRNG
    ⟨fun n => if n < 2 then 0 else 1 / 2⟩ rfl (by simp [zeroRNG]) (by simp [zeroRNG])

theorem lensCamera_orthonormal (shape : Enums.ApertureShape) (fd : ℝ) :
    (lensCamera shape fd).Orthonormal := by
  simp [Orthonormal, lensCamera, axisCamera, Dot]

theorem axisCamera_orthonormal : axisCamera.Orthonormal := by
  simp [Orthonormal, axisCamera, Dot]

theorem screen_arg_pos (c : Camera) (hO : c.Orthonormal) (a b : ℝ) :
    0 < Dot (c.N + a * c.U - b * c.V) (c.N + a * c.U - b * c.V) := by
  obtain ⟨hN, hU, hV, hNU, hNV, hUV⟩ := hO
  rw [Dot_screen_self, hN, hU, hV, hNU, hNV, hUV]
  nlinarith [mul_self_nonneg a, mul_self_nonneg b]

theorem PinholeD_unit (c : Camera) (hO : c.Orthonormal) (u v : ℝ) :
    Dot (c.PinholeD u v) (c.PinholeD u v) = 1 :=
  Dot_Normalize_self _ (screen_arg_pos c hO _ _)

theorem PinholeD_dot_N (c : Camera) (hO : c.Orthonormal) (u v : ℝ) :
    0 < Dot (c.PinholeD u v) c.N := by
  have hpos := screen_arg_pos c hO (c.ScreenPoint u v).x (c.ScreenPoint u v).y
  obtain ⟨hN, hU, hV, hNU, hNV, hUV⟩ := hO
  unfold PinholeD
  rw [Dot_Normalize_left, Dot_screen, hN, Dot_symm c.U c.N, Dot_symm c.V c.N, hNU, hNV]
  have := Length_pos _ hpos
  have h1 : (1 : ℝ) + (c.ScreenPoint u v).x * 0 - (c.ScreenPoint u v).y * 0 = 1 := by ring
  rw [h1]
  exact div_pos one_pos this

theorem Sample_lens_eq (c : Camera) (disk : Vec2f ℝ → Vec2f ℝ) (UV : Vec2i) (rng : RNG)
    (hA : c.ApertureSize ≠ 0) :
    c.Sample disk UV rng =
      ({ O := c.Pos + (c.U * (c.LensUV disk rng.Get1.2.Get1.2).1.x +
              c.V * (c.LensUV disk rng.Get1.2.Get1.2).1.y)
         D := Normalize
              (c.PinholeD ((UV.x : ℝ) + rng.draws 0) ((UV.y : ℝ) + rng.draws 1) * c.FocalDistance -
                (c.U * (c.LensUV disk rng.Get1.2.Get1.2).1.x +
                  c.V * (c.LensUV disk rng.Get1.2.Get1.2).1.y))
         MinT := -1000
         MaxT := 1000
         ImageUV := ⟨(UV.x : ℝ) + rng.draws 0, (UV.y : ℝ) + rng.draws 1⟩ },
       (c.LensUV disk rng.Get1.2.Get1.2).2) := by
  simp only [Sample, hA, ne_eq, not_false_eq_true, if_true, RNG.Get1, PinholeD, ScreenPoint]

theorem lens_arg_pos (c : Camera) (hO : c.Orthonormal) (u v lx ly : ℝ)
    (h : c.FocalDistance ≠ 0 ∨ lx ≠ 0 ∨ ly ≠ 0) :
    0 < Dot (c.PinholeD u v * c.FocalDistance - (c.U * lx + c.V * ly))
      (c.PinholeD u v * c.FocalDistance - (c.U * lx + c.V * ly)) := by
  apply Dot_self_pos_of_ne
  intro hX
  have hDN := PinholeD_dot_N c hO u v
  obtain ⟨hN, hU, hV, hNU, hNV, hUV⟩ := hO
  have eN := Dot_lens (c.PinholeD u v) c.U c.V c.N c.FocalDistance lx ly
  have eU := Dot_lens (c.PinholeD u v) c.U c.V c.U c.FocalDistance lx ly
  have eV := Dot_lens (c.PinholeD u v) c.U c.V c.V c.FocalDistance lx ly
  rw [hX, Dot_splat_zero_left] at eN eU eV
  rw [Dot_symm c.U c.N, Dot_symm c.V c.N, hNU, hNV] at eN
  rw [hU, Dot_symm c.V c.U, hUV] at eU
  rw [hUV, hV] at eV
  have hF : c.FocalDistance = 0 := by
    have : c.FocalDistance * Dot (c.PinholeD u v) c.N = 0 := by linarith
    rcases mul_eq_zero.mp this with h0 | h0
    · exact h0
    · exact absurd h0 hDN.ne'
  rw [hF] at eU eV
  rcases h with h | h | h
  · exact h hF
  · apply h
    linarith
  · apply h
    linarith

/-- C12, as stated, fails: with an orthonormal basis, focal distance `0`, a polygonal
aperture of size `1` and all draws `0` (so the lens offset is zero), the direction
`Sample` returns is the normalisation of the zero vector, and its length is not
`1`. -/
theorem Sample_direction_not_unit :
    (lensCamera Enums.ApertureShape.Polygon 0).Orthonormal ∧
    (∀ n : ℕ, 0 ≤ zeroRNG.draws n ∧ zeroRNG.draws n < 1) ∧
    Length ((lensCamera Enums.ApertureShape.Polygon 0).Sample (fun v => v) ⟨4, 4⟩ zeroRNG).1.D
      ≠ 1 := by
  refine ⟨lensCamera_orthonormal _ _, fun n => ⟨le_refl _, zero_lt_one⟩, ?_⟩
  have hS : ((lensCamera Enums.ApertureShape.Polygon 0).Sample (fun v => v) ⟨4, 4⟩ zeroRNG).1.D =
      ⟨0, 0, 0⟩ := by
    simp [Sample, LensUV, lensCamera, axisCamera, zeroRNG, RNG.Get1, Normalize, Length, Dot,
      Vec3f.add_def, Vec3f.sub_def, Vec3f.smul_def, Vec3f.mul_def, truncToInt]
  rw [hS]
  simp [Length, Dot]

/-- C12, amended: for every camera with an orthonormal basis, every aperture size,
aperture shape, lens sampler, pixel and random draws in `[0, 1)`, the direction of
the ray `Sample` returns has length `1`, provided that in thin-lens mode the blade
count of a polygonal aperture is not `0`, and the focal distance is not `0` or the
lens offset drawn is not `(0, 0)`. -/
theorem Sample_direction_unit (c : Camera) (disk : Vec2f ℝ → Vec2f ℝ) (UV : Vec2i) (rng : RNG)
    (hO : c.Orthonormal)
    (_hD : ∀ n : ℕ, 0 ≤ rng.draws n ∧ rng.draws n < 1)
    (_hB : c.ApertureSize ≠ 0 → c.ApertureShape = Enums.ApertureShape.Polygon →
      c.NoApertureBlades ≠ 0)
    (hF : c.ApertureSize ≠ 0 →
      c.FocalDistance ≠ 0 ∨ (c.LensUV disk rng.Get1.2.Get1.2).1 ≠ ⟨0, 0⟩) :
    Length (c.Sample disk UV rng).1.D = 1 := by
  by_cases hA : c.ApertureSize = 0
  · rw [Sample_pinhole_eq c disk UV rng hA]
    exact Length_eq_one _ (PinholeD_unit c hO _ _)
  · rw [Sample_lens_eq c disk UV rng hA]
    apply Length_Normalize
    apply lens_arg_pos c hO
    rcases hF hA with h | h
    · exact Or.inl h
    · by_contra hc
      push_neg at hc
      apply h
      have hx : (c.LensUV disk rng.Get1.2.Get1.2).1.x = 0 := hc.2.1
      have hy : (c.LensUV disk rng.Get1.2.Get1.2).1.y = 0 := hc.2.2
      cases hl : (c.LensUV disk rng.Get1.2.Get1.2).1 with
      | mk x y =>
        rw [hl] at hx hy
        simp only at hx hy
        rw [hx, hy]

/-- Witness of the amended C12 in thin-lens mode: polygonal aperture of size `1`
with six blades, focal distance `10`, pixel `(6, 6)`, all draws `0`. -/
theorem Sample_direction_unit_witness :
    (lensCamera Enums.ApertureShape.Polygon 10).Orthonormal ∧
    (∀ n : ℕ, 0 ≤ zeroRNG.draws n ∧ zeroRNG.draws n < 1) ∧
    (lensCamera Enums.ApertureShape.Polygon 10).NoApertureBlades ≠ 0 ∧
    (lensCamera Enums.ApertureShape.Polygon 10).FocalDistance ≠ 0 ∧
    Length ((lensCamera Enums.ApertureShape.Polygon 10).Sample (fun v => v) ⟨6, 6⟩ zeroRNG).1.D
      = 1 :=
  ⟨lensCamera_orthonormal _ _, fun _ => ⟨le_refl _, zero_lt_one⟩, by decide,
    by norm_num [lensCamera],
    Sample_direction_unit (lensCamera Enums.ApertureShape.Polygon 10) (fun v => v) ⟨6, 6⟩ zeroRNG
      (lensCamera_orthonormal _ _) (fun _ => ⟨le_refl _, zero_lt_one⟩) (fun _ _ => by decide)
      (fun _ => Or.inl (by norm_num [lensCamera]))⟩

/-! ### Projection onto the film plane -/

theorem ProjectPointToFilmPlane_eq (c : Camera) (P : Vec3f) (FilmUV : Vec2f ℝ) :
    c.ProjectPointToFilmPlane P FilmUV =
      if (c.CamUV P).x < c.Film.Screen00 ∨ (c.CamUV P).x > c.Film.Screen01 then (false, FilmUV)
      else if (c.CamUV P).y < c.Film.Screen10 ∨ (c.CamUV P).y > c.Film.Screen11 then
        (false, FilmUV)
      else
        (true,
          ⟨(c.Film.Resolution.x : ℝ) *
              (((c.CamUV P).x - c.Film.Screen00) / (c.Film.Screen01 - c.Film.Screen00)),
            (c.Film.Resolution.y : ℝ) *
              (((c.CamUV P).y - c.Film.Screen10) / (c.Film.Screen11 - c.Film.Screen10))⟩) :=
  rfl

theorem scaled_offset_range (r x lo hi : ℝ) (h0 : lo ≤ x) (h1 : x ≤ hi) (hlt : lo < hi)
    (hr : 0 ≤ r) :
    r * ((x - lo) / (hi - lo)) = r * (x - lo) / (hi - lo) ∧
    0 ≤ r * ((x - lo) / (hi - lo)) ∧ r * ((x - lo) / (hi - lo)) ≤ r := by
  have hd : 0 < hi - lo := by linarith
  have hq0 : 0 ≤ (x - lo) / (hi - lo) := div_nonneg (by linarith) hd.le
  have hq1 : (x - lo) / (hi - lo) ≤ 1 := by
    rw [div_le_one hd]
    linarith
  refine ⟨by ring, mul_nonneg hr hq0, ?_⟩
  calc r * ((x - lo) / (hi - lo)) ≤ r * 1 := mul_le_mul_of_nonneg_left hq1 hr
    _ = r := mul_one r

/-- C13: `ProjectPointToFilmPlane` returns `false` exactly when the projected
camera-plane coordinate is below the minimum or above the maximum screen extent on
some axis (a coordinate on the boundary is accepted). When it returns `true` and the
extents have `max > min`, the `FilmUV` written is
`resolution * (coordinate - min) / (max - min)` on each axis, and for a resolution
that is not negative it lies in `[0, width] × [0, height]`. -/
theorem ProjectPointToFilmPlane_range (c : Camera) (P : Vec3f) (FilmUV : Vec2f ℝ) :
    ((c.ProjectPointToFilmPlane P FilmUV).1 = false ↔
      ((c.CamUV P).x < c.Film.Screen00 ∨ (c.CamUV P).x > c.Film.Screen01 ∨
        (c.CamUV P).y < c.Film.Screen10 ∨ (c.CamUV P).y > c.Film.Screen11)) ∧
    ((c.ProjectPointToFilmPlane P FilmUV).1 = true →
      c.Film.Screen00 < c.Film.Screen01 → c.Film.Screen10 < c.Film.Screen11 →
      0 ≤ c.Film.Resolution.x → 0 ≤ c.Film.Resolution.y →
      (c.ProjectPointToFilmPlane P FilmUV).2.x =
          (c.Film.Resolution.x : ℝ) * ((c.CamUV P).x - c.Film.Screen00) /
            (c.Film.Screen01 - c.Film.Screen00) ∧
      (c.ProjectPointToFilmPlane P FilmUV).2.y =
          (c.Film.Resolution.y : ℝ) * ((c.CamUV P).y - c.Film.Screen10) /
            (c.Film.Screen11 - c.Film.Screen10) ∧
      0 ≤ (c.ProjectPointToFilmPlane P FilmUV).2.x ∧
      (c.ProjectPointToFilmPlane P FilmUV).2.x ≤ (c.Film.Resolution.x : ℝ) ∧
      0 ≤ (c.ProjectPointToFilmPlane P FilmUV).2.y ∧
      (c.ProjectPointToFilmPlane P FilmUV).2.y ≤ (c.Film.Resolution.y : ℝ)) := by
  rw [ProjectPointToFilmPlane_eq]
  by_cases hx : (c.CamUV P).x < c.Film.Screen00 ∨ (c.CamUV P).x > c.Film.Screen01
  · rw [if_pos hx]
    refine ⟨⟨fun _ => ?_, fun _ => rfl⟩, fun h => absurd h (by simp)⟩
    rcases hx with h | h
    · exact Or.inl h
    · exact Or.inr (Or.inl h)
  · rw [if_neg hx]
    by_cases hy : (c.CamUV P).y < c.Film.Screen10 ∨ (c.CamUV P).y > c.Film.Screen11
    · rw [if_pos hy]
      refine ⟨⟨fun _ => ?_, fun _ => rfl⟩, fun h => absurd h (by simp)⟩
      rcases hy with h | h
      · exact Or.inr (Or.inr (Or.inl h))
      · exact Or.inr (Or.inr (Or.inr h))
    · rw [if_neg hy]
      push_neg at hx hy
      constructor
      · constructor
        · intro h
          exact absurd h (by simp)
        · intro h
          rcases h with h | h | h | h
          · exact absurd h (not_lt.mpr hx.1)
          · exact absurd h (not_lt.mpr hx.2)
          · exact absurd h (not_lt.mpr hy.1)
          · exact absurd h (not_lt.mpr hy.2)
      · intro _ h0 h1 hw hh
        have hwr : (0 : ℝ) ≤ (c.Film.Resolution.x : ℝ) := by exact_mod_cast hw
        have hhr : (0 : ℝ) ≤ (c.Film.Resolution.y : ℝ) := by exact_mod_cast hh
        have ex := scaled_offset_range _ _ _ _ hx.1 hx.2 h0 hwr
        have ey := scaled_offset_range _ _ _ _ hy.1 hy.2 h1 hhr
        exact ⟨ex.1, ey.1, ex.2.1, ex.2.2, ey.2.1, ey.2.2⟩

theorem axisCamera_project_centre :
    axisCamera.ProjectPointToFilmPlane ⟨0, 0, 1⟩ ⟨0, 0⟩ = (true, ⟨4, 4⟩) := by
  simp only [ProjectPointToFilmPlane, axisCamera, Normalize, Length, Dot, Vec3f.add_def,
    Vec3f.sub_def, Vec3f.mul_def, Film.GetResolution]
  norm_num

/-- Witness of C13 on `axisCamera` and the point `(0, 0, 1)` straight ahead, which
is accepted and projected to the centre `(4, 4)` of the `8 × 8` film. -/
theorem ProjectPointToFilmPlane_range_witness :
    (axisCamera.ProjectPointToFilmPlane ⟨0, 0, 1⟩ ⟨0, 0⟩).1 = true ∧
    (axisCamera.ProjectPointToFilmPlane ⟨0, 0, 1⟩ ⟨0, 0⟩).2.x =
        (axisCamera.Film.Resolution.x : ℝ) *
          ((axisCamera.CamUV ⟨0, 0, 1⟩).x - axisCamera.Film.Screen00) /
          (axisCamera.Film.Screen01 - axisCamera.Film.Screen00) ∧
    (axisCamera.ProjectPointToFilmPlane ⟨0, 0, 1⟩ ⟨0, 0⟩).2.y =
        (axisCamera.Film.Resolution.y : ℝ) *
          ((axisCamera.CamUV ⟨0, 0, 1⟩).y - axisCamera.Film.Screen10) /
          (axisCamera.Film.Screen11 - axisCamera.Film.Screen10) ∧
    0 ≤ (axisCamera.ProjectPointToFilmPlane ⟨0, 0, 1⟩ ⟨0, 0⟩).2.x ∧
    (axisCamera.ProjectPointToFilmPlane ⟨0, 0, 1⟩ ⟨0, 0⟩).2.x ≤
      (axisCamera.Film.Resolution.x : ℝ) ∧
    0 ≤ (axisCamera.ProjectPointToFilmPlane ⟨0, 0, 1⟩ ⟨0, 0⟩).2.y ∧
    (axisCamera.ProjectPointToFilmPlane ⟨0, 0, 1⟩ ⟨0, 0⟩).2.y ≤
      (axisCamera.Film.Resolution.y : ℝ) :=
  ⟨congrArg Prod.fst axisCamera_project_centre,
    (ProjectPointToFilmPlane_range axisCamera ⟨0, 0, 1⟩ ⟨0, 0⟩).2
      (congrArg Prod.fst axisCamera_project_centre) (by norm_num [axisCamera])
      (by norm_num [axisCamera]) (by decide) (by decide)⟩

/-! ### Update -/

/-- C17: `Update()` sets `FocalDistance` to the Euclidean distance between `Pos` and
`Target` when it is `-1` on entry and leaves it unchanged for every other value; in
both cases `Pos`, `Target`, `Up`, `FOV` and the aperture shape, size, blade count
and angle are unchanged. -/
theorem Update_FocalDistance (FilmUpdate : ExposureRender.Film → ℝ → ExposureRender.Film)
    (c : Camera) :
    (c.FocalDistance = -1 → (c.Update FilmUpdate).FocalDistance =
      Real.sqrt ((c.Pos.x - c.Target.x) ^ 2 + (c.Pos.y - c.Target.y) ^ 2 +
        (c.Pos.z - c.Target.z) ^ 2)) ∧
    (c.FocalDistance ≠ -1 → (c.Update FilmUpdate).FocalDistance = c.FocalDistance) ∧
    (c.Update FilmUpdate).Pos = c.Pos ∧ (c.Update FilmUpdate).Target = c.Target ∧
    (c.Update FilmUpdate).Up = c.Up ∧ (c.Update FilmUpdate).FOV = c.FOV ∧
    (c.Update FilmUpdate).ApertureShape = c.ApertureShape ∧
    (c.Update FilmUpdate).ApertureSize = c.ApertureSize ∧
    (c.Update FilmUpdate).NoApertureBlades = c.NoApertureBlades ∧
    (c.Update FilmUpdate).ApertureAngle = c.ApertureAngle := by
  refine ⟨fun h => ?_, fun h => ?_, rfl, rfl, rfl, rfl, rfl, rfl, rfl, rfl⟩
  · simp only [Update, h, if_true, Length2, Length, Dot, Vec3f.sub_def]
    congr 1
    ring
  · simp only [Update, h, if_false]

/-- Witness of C17: with `FocalDistance = -1` the camera at the origin aimed at
`(0, 0, 1)` gets the distance; with `FocalDistance = 10` it keeps `10`. -/
theorem Update_FocalDistance_witness :
    ((lensCamera Enums.ApertureShape.Polygon (-1)).Update (fun f _ => f)).FocalDistance =
      Real.sqrt (((lensCamera Enums.ApertureShape.Polygon (-1)).Pos.x -
          (lensCamera Enums.ApertureShape.Polygon (-1)).Target.x) ^ 2 +
        ((lensCamera Enums.ApertureShape.Polygon (-1)).Pos.y -
          (lensCamera Enums.ApertureShape.Polygon (-1)).Target.y) ^ 2 +
        ((lensCamera Enums.ApertureShape.Polygon (-1)).Pos.z -
          (lensCamera Enums.ApertureShape.Polygon (-1)).Target.z) ^ 2) ∧
    (axisCamera.Update (fun f _ => f)).FocalDistance = axisCamera.FocalDistance :=
  ⟨(Update_FocalDistance (fun f _ => f) (lensCamera Enums.ApertureShape.Polygon (-1))).1 rfl,
    (Update_FocalDistance (fun f _ => f) axisCamera).2.1 (by norm_num [axisCamera])⟩

/-! ### The centre pixel of the default camera -/

theorem new_Update_N_unit (mkFilm : Vec2i → ExposureRender.Film)
    (FilmUpdate : ExposureRender.Film → ℝ → ExposureRender.Film) :
    Dot ((Camera.new mkFilm).Update FilmUpdate).N ((Camera.new mkFilm).Update FilmUpdate).N = 1 := by
  show Dot (Normalize (Vec3f.splat 0 - Vec3f.splat 100))
    (Normalize (Vec3f.splat 0 - Vec3f.splat 100)) = 1
  apply Dot_Normalize_self
  simp only [Dot, Vec3f.sub_def, Vec3f.splat]
  norm_num

/-- C16: for the default camera after `Update()`, whose film after the update has
resolution `640 × 480`, screen extents symmetric about `0` on each axis and
`InvScreen` = extent size / resolution, `Sample((320, 240))` with a random source
that always returns `0` gives a ray with origin `Pos = (100, 100, 100)` and
direction `N`. -/
theorem Sample_centre_pixel (mkFilm : Vec2i → ExposureRender.Film)
    (FilmUpdate : ExposureRender.Film → ℝ → ExposureRender.Film) (disk : Vec2f ℝ → Vec2f ℝ)
    (hres : (FilmUpdate (mkFilm ⟨640, 480⟩) 35).Resolution = ⟨640, 480⟩)
    (hs0 : (FilmUpdate (mkFilm ⟨640, 480⟩) 35).Screen00 =
      -(FilmUpdate (mkFilm ⟨640, 480⟩) 35).Screen01)
    (hs1 : (FilmUpdate (mkFilm ⟨640, 480⟩) 35).Screen10 =
      -(FilmUpdate (mkFilm ⟨640, 480⟩) 35).Screen11)
    (hi0 : (FilmUpdate (mkFilm ⟨640, 480⟩) 35).InvScreen.x =
      ((FilmUpdate (mkFilm ⟨640, 480⟩) 35).Screen01 - (FilmUpdate (mkFilm ⟨640, 480⟩) 35).Screen00) /
        ((FilmUpdate (mkFilm ⟨640, 480⟩) 35).Resolution.x : ℝ))
    (hi1 : (FilmUpdate (mkFilm ⟨640, 480⟩) 35).InvScreen.y =
      ((FilmUpdate (mkFilm ⟨640, 480⟩) 35).Screen11 - (FilmUpdate (mkFilm ⟨640, 480⟩) 35).Screen10) /
        ((FilmUpdate (mkFilm ⟨640, 480⟩) 35).Resolution.y : ℝ)) :
    ((Camera.new mkFilm).Update FilmUpdate).Pos = ⟨100, 100, 100⟩ ∧
    ((Camera.new mkFilm).Update FilmUpdate).Film.Resolution = ⟨640, 480⟩ ∧
    ((Camera.new mkFilm).Update FilmUpdate).FOV = 35 ∧
    ((Camera.new mkFilm).Update FilmUpdate).ApertureSize = 0 ∧
    (((Camera.new mkFilm).Update FilmUpdate).Sample disk ⟨320, 240⟩ zeroRNG).1.O =
      ((Camera.new mkFilm).Update FilmUpdate).Pos ∧
    (((Camera.new mkFilm).Update FilmUpdate).Sample disk ⟨320, 240⟩ zeroRNG).1.D =
      ((Camera.new mkFilm).Update FilmUpdate).N := by
  refine ⟨rfl, hres, rfl, rfl, ?_, ?_⟩
  · rw [Sample_pinhole_eq _ disk ⟨320, 240⟩ zeroRNG rfl]
  · rw [Sample_pinhole_eq _ disk ⟨320, 240⟩ zeroRNG rfl]
    show PinholeD _ _ _ = _
    have hx : (((Camera.new mkFilm).Update FilmUpdate).ScreenPoint
        (((320 : ℤ) : ℝ) + zeroRNG.draws 0) (((240 : ℤ) : ℝ) + zeroRNG.draws 1)).x = 0 := by
      show (FilmUpdate (mkFilm ⟨640, 480⟩) 35).Screen00 +
        (FilmUpdate (mkFilm ⟨640, 480⟩) 35).InvScreen.x * (((320 : ℤ) : ℝ) + 0) = 0
      rw [hi0, hres, hs0]
      push_cast
      ring
    have hy : (((Camera.new mkFilm).Update FilmUpdate).ScreenPoint
        (((320 : ℤ) : ℝ) + zeroRNG.draws 0) (((240 : ℤ) : ℝ) + zeroRNG.draws 1)).y = 0 := by
      show (FilmUpdate (mkFilm ⟨640, 480⟩) 35).Screen10 +
        (FilmUpdate (mkFilm ⟨640, 480⟩) 35).InvScreen.y * (((240 : ℤ) : ℝ) + 0) = 0
      rw [hi1, hres, hs1]
      push_cast
      ring
    unfold PinholeD
    rw [hx, hy, screen_zero]
    exact Normalize_of_unit _ (new_Update_N_unit mkFilm FilmUpdate)

/-- Witness of C16 with the film `symFilm` (extents `[-1, 1] × [-3/4, 3/4]`) that
the update leaves as it is. -/
theorem Sample_centre_pixel_witness :
    ((Camera.new symFilm).Update (fun f _ => f)).Pos = ⟨100, 100, 100⟩ ∧
    ((Camera.new symFilm).Update (fun f _ => f)).Film.Resolution = ⟨640, 480⟩ ∧
    ((Camera.new symFilm).Update (fun f _ => f)).FOV = 35 ∧
    ((Camera.new symFilm).Update (fun f _ => f)).ApertureSize = 0 ∧
    (((Camera.new symFilm).Update (fun f _ => f)).Sample (fun v => v) ⟨320, 240⟩ zeroRNG).1.O =
      ((Camera.new symFilm).Update (fun f _ => f)).Pos ∧
    (((Camera.new symFilm).Update (fun f _ => f)).Sample (fun v => v) ⟨320, 240⟩ zeroRNG).1.D =
      ((Camera.new symFilm).Update (fun f _ => f)).N :=
  Sample_centre_pixel symFilm (fun f _ => f) (fun v => v) rfl (by norm_num [symFilm])
    (by norm_num [symFilm]) (by norm_num [symFilm]) (by norm_num [symFilm])

/-! ### Thin-lens mode -/

theorem sqrt_four : Real.sqrt 4 = 2 := by
  rw [show (4 : ℝ) = 2 ^ 2 by norm_num]
  exact Real.sqrt_sq (by norm_num)

/-- C18, as stated, fails: with an orthonormal basis, aperture size `1`, an
unrecognized aperture shape and focal distance `-2`, the ray for the pixel `(4, 4)`
with zero jitter has direction `(0, 0, -1)`, the opposite of the pinhole direction
`(0, 0, 1)` that the same camera gives with aperture size `0`. -/
theorem Sample_other_shape_reverses :
    (lensCamera Enums.ApertureShape.Other (-2)).Orthonormal ∧
    (lensCamera Enums.ApertureShape.Other (-2)).ApertureSize ≠ 0 ∧
    ((lensCamera Enums.ApertureShape.Other (-2)).Sample (fun v => v) ⟨4, 4⟩ zeroRNG).1.D =
      ⟨0, 0, -1⟩ ∧
    ({ lensCamera Enums.ApertureShape.Other (-2) with ApertureSize := 0 }.Sample (fun v => v)
      ⟨4, 4⟩ zeroRNG).1.D = ⟨0, 0, 1⟩ ∧
    ((lensCamera Enums.ApertureShape.Other (-2)).Sample (fun v => v) ⟨4, 4⟩ zeroRNG).1.D ≠
      ({ lensCamera Enums.ApertureShape.Other (-2) with ApertureSize := 0 }.Sample (fun v => v)
        ⟨4, 4⟩ zeroRNG).1.D := by
  have h1 : ((lensCamera Enums.ApertureShape.Other (-2)).Sample (fun v => v) ⟨4, 4⟩ zeroRNG).1.D =
      ⟨0, 0, -1⟩ := by
    simp only [Sample, LensUV, Vec2.new, lensCamera, axisCamera, zeroRNG, RNG.Get1, Normalize,
      Length, Dot, Vec3f.add_def, Vec3f.sub_def, Vec3f.smul_def, Vec3f.mul_def]
    norm_num
    rw [sqrt_four]
    norm_num
  have h2 : ({ lensCamera Enums.ApertureShape.Other (-2) with ApertureSize := 0 }.Sample
      (fun v => v) ⟨4, 4⟩ zeroRNG).1.D = ⟨0, 0, 1⟩ := by
    simp only [Sample, lensCamera, axisCamera, zeroRNG, RNG.Get1, Normalize, Length, Dot,
      Vec3f.add_def, Vec3f.sub_def, Vec3f.smul_def, Vec3f.mul_def]
    norm_num
  refine ⟨lensCamera_orthonormal _ _, by norm_num [lensCamera], h1, h2, ?_⟩
  rw [h1, h2]
  intro h
  have hz := congrArg Vec3f.z h
  norm_num at hz

/-- C18, amended: for every camera with an orthonormal basis, `ApertureSize ≠ 0`, an
aperture shape that is neither `Circular` nor `Polygon`, and a focal distance that is
positive, `Sample` applies no lens offset: the ray has origin `Pos` and the
direction of the pinhole ray for the same jittered pixel (the ray the same camera
gives with `ApertureSize = 0`), and no further draw is consumed. -/
theorem Sample_other_shape_noop (c : Camera) (disk : Vec2f ℝ → Vec2f ℝ) (UV : Vec2i) (rng : RNG)
    (hO : c.Orthonormal) (hA : c.ApertureSize ≠ 0)
    (hS : c.ApertureShape = Enums.ApertureShape.Other) (hF : 0 < c.FocalDistance) :
    (c.Sample disk UV rng).1.O = c.Pos ∧
    (c.Sample disk UV rng).1.D =
      c.PinholeD ((UV.x : ℝ) + rng.draws 0) ((UV.y : ℝ) + rng.draws 1) ∧
    (c.Sample disk UV rng).1 = ({ c with ApertureSize := 0 }.Sample disk UV rng).1 ∧
    (c.Sample disk UV rng).2 = ({ c with ApertureSize := 0 }.Sample disk UV rng).2 := by
  have hl : c.LensUV disk rng.Get1.2.Get1.2 = (⟨0, 0⟩, rng.Get1.2.Get1.2) := by
    simp only [LensUV, hS, Vec2.new]
  have hD := Normalize_mul_pos _
    (PinholeD_unit c hO ((UV.x : ℝ) + rng.draws 0) ((UV.y : ℝ) + rng.draws 1)) _ hF
  have e1 : c.Sample disk UV rng =
      ({ O := c.Pos
         D := c.PinholeD ((UV.x : ℝ) + rng.draws 0) ((UV.y : ℝ) + rng.draws 1)
         MinT := -1000
         MaxT := 1000
         ImageUV := ⟨(UV.x : ℝ) + rng.draws 0, (UV.y : ℝ) + rng.draws 1⟩ },
       rng.Get1.2.Get1.2) := by
    rw [Sample_lens_eq c disk UV rng hA, hl]
    simp only [sub_zero_lens, add_zero_lens, hD]
  have e2 := Sample_pinhole_eq { c with ApertureSize := 0 } disk UV rng rfl
  rw [e1, e2]
  exact ⟨rfl, rfl, rfl, rfl⟩

/-- Witness of the amended C18: unrecognized shape, aperture size `1`, focal
distance `10`, pixel `(6, 6)`, all draws `0`. -/
theorem Sample_other_shape_noop_witness :
    (lensCamera Enums.ApertureShape.Other 10).Orthonormal ∧
    (lensCamera Enums.ApertureShape.Other 10).ApertureSize ≠ 0 ∧
    (0 : ℝ) < (lensCamera Enums.ApertureShape.Other 10).FocalDistance ∧
    ((lensCamera Enums.ApertureShape.Other 10).Sample (fun v => v) ⟨6, 6⟩ zeroRNG).1.O =
      (lensCamera Enums.ApertureShape.Other 10).Pos ∧
    ((lensCamera Enums.ApertureShape.Other 10).Sample (fun v => v) ⟨6, 6⟩ zeroRNG).1.D =
      (lensCamera Enums.ApertureShape.Other 10).PinholeD (((6 : ℤ) : ℝ) + zeroRNG.draws 0)
        (((6 : ℤ) : ℝ) + zeroRNG.draws 1) ∧
    ((lensCamera Enums.ApertureShape.Other 10).Sample (fun v => v) ⟨6, 6⟩ zeroRNG).1 =
      ({ lensCamera Enums.ApertureShape.Other 10 with ApertureSize := 0 }.Sample (fun v => v)
        ⟨6, 6⟩ zeroRNG).1 ∧
    ((lensCamera Enums.ApertureShape.Other 10).Sample (fun v => v) ⟨6, 6⟩ zeroRNG).2 =
      ({ lensCamera Enums.ApertureShape.Other 10 with ApertureSize := 0 }.Sample (fun v => v)
        ⟨6, 6⟩ zeroRNG).2 :=
  ⟨lensCamera_orthonormal _ _, by norm_num [lensCamera], by norm_num [lensCamera],
    Sample_other_shape_noop (lensCamera Enums.ApertureShape.Other 10) (fun v => v) ⟨6, 6⟩ zeroRNG
      (lensCamera_orthonormal _ _) (by norm_num [lensCamera]) rfl (by norm_num [lensCamera])⟩

/-- C20: for every camera with an orthonormal basis, `ApertureSize ≠ 0` and
`FocalDistance > 0` (and, for a polygonal aperture, a blade count that is not `0`),
every lens sampler, pixel and random draws in `[0, 1)`, the ray `R` returned by
`Sample` passes through the focal point `Pos + FocalDistance * D0`,
where `D0` is the pinhole direction for the jittered pixel: there is `t > 0` with
`R.O + t * R.D = Pos + FocalDistance * D0`; and `R.O - Pos` is a combination of `U`
and `V`. -/
theorem Sample_thin_lens_focus (c : Camera) (disk : Vec2f ℝ → Vec2f ℝ) (UV : Vec2i) (rng : RNG)
    (hO : c.Orthonormal) (hA : c.ApertureSize ≠ 0) (hF : 0 < c.FocalDistance)
    (_hB : c.ApertureShape = Enums.ApertureShape.Polygon → c.NoApertureBlades ≠ 0)
    (_hD : ∀ n : ℕ, 0 ≤ rng.draws n ∧ rng.draws n < 1) :
    (∃ t : ℝ, 0 < t ∧
      (c.Sample disk UV rng).1.O + (c.Sample disk UV rng).1.D * t =
        c.Pos + c.PinholeD ((UV.x : ℝ) + rng.draws 0) ((UV.y : ℝ) + rng.draws 1) *
          c.FocalDistance) ∧
    ∃ a b : ℝ, (c.Sample disk UV rng).1.O - c.Pos = c.U * a + c.V * b := by
  rw [Sample_lens_eq c disk UV rng hA]
  have hpos := lens_arg_pos c hO ((UV.x : ℝ) + rng.draws 0) ((UV.y : ℝ) + rng.draws 1)
    (c.LensUV disk rng.Get1.2.Get1.2).1.x (c.LensUV disk rng.Get1.2.Get1.2).1.y
    (Or.inl hF.ne')
  constructor
  · refine ⟨_, Length_pos _ hpos, ?_⟩
    show _ + Normalize _ * Length _ = _
    rw [Normalize_mul_Length _ hpos]
    simp only [Vec3f.add_def, Vec3f.sub_def, Vec3f.mul_def]
    ext <;> simp
  · refine ⟨(c.LensUV disk rng.Get1.2.Get1.2).1.x, (c.LensUV disk rng.Get1.2.Get1.2).1.y, ?_⟩
    simp only [Vec3f.add_def, Vec3f.sub_def, Vec3f.mul_def]
    ext <;> simp

/-- Witness of C20: polygonal aperture of size `1` with six blades, focal distance
`10`, pixel `(6, 6)`, all draws `0`. -/
theorem Sample_thin_lens_focus_witness :
    (lensCamera Enums.ApertureShape.Polygon 10).Orthonormal ∧
    (lensCamera Enums.ApertureShape.Polygon 10).ApertureSize ≠ 0 ∧
    (0 : ℝ) < (lensCamera Enums.ApertureShape.Polygon 10).FocalDistance ∧
    (lensCamera Enums.ApertureShape.Polygon 10).NoApertureBlades ≠ 0 ∧
    (∀ n : ℕ, 0 ≤ zeroRNG.draws n ∧ zeroRNG.draws n < 1) ∧
    (∃ t : ℝ, 0 < t ∧
      ((lensCamera Enums.ApertureShape.Polygon 10).Sample (fun v => v) ⟨6, 6⟩ zeroRNG).1.O +
        ((lensCamera Enums.ApertureShape.Polygon 10).Sample (fun v => v) ⟨6, 6⟩ zeroRNG).1.D * t =
        (lensCamera Enums.ApertureShape.Polygon 10).Pos +
          (lensCamera Enums.ApertureShape.Polygon 10).PinholeD (((6 : ℤ) : ℝ) + zeroRNG.draws 0)
            (((6 : ℤ) : ℝ) + zeroRNG.draws 1) *
            (lensCamera Enums.ApertureShape.Polygon 10).FocalDistance) ∧
    ∃ a b : ℝ,
      ((lensCamera Enums.ApertureShape.Polygon 10).Sample (fun v => v) ⟨6, 6⟩ zeroRNG).1.O -
          (lensCamera Enums.ApertureShape.Polygon 10).Pos =
        (lensCamera Enums.ApertureShape.Polygon 10).U * a +
          (lensCamera Enums.ApertureShape.Polygon 10).V * b :=
  ⟨lensCamera_orthonormal _ _, by norm_num [lensCamera], by norm_num [lensCamera], by decide,
    fun _ => ⟨le_refl _, zero_lt_one⟩,
    Sample_thin_lens_focus (lensCamera Enums.ApertureShape.Polygon 10) (fun v => v) ⟨6, 6⟩ zeroRNG
      (lensCamera_orthonormal _ _) (by norm_num [lensCamera]) (by norm_num [lensCamera])
      (fun _ => by decide) (fun _ => ⟨le_refl _, zero_lt_one⟩)⟩

/-! ### The polygonal aperture -/

theorem truncToInt_of_nonneg (f : ℝ) (h : 0 ≤ f) : truncToInt f = ⌊f⌋ := by
  simp only [truncToInt, h, if_true]

theorem blade_chord_le_one (a b o : ℝ) (h0 : 0 ≤ o) (h1 : o ≤ 1) :
    (Real.cos a * (1 - o) + Real.cos b * o) ^ 2 + (Real.sin a * (1 - o) + Real.sin b * o) ^ 2 ≤
      1 := by
  have ha := Real.sin_sq_add_cos_sq a
  have hb := Real.sin_sq_add_cos_sq b
  have hab : Real.cos a * Real.cos b + Real.sin a * Real.sin b ≤ 1 := by
    nlinarith [sq_nonneg (Real.cos a - Real.cos b), sq_nonneg (Real.sin a - Real.sin b)]
  have hw : 0 ≤ o * (1 - o) := mul_nonneg h0 (by linarith)
  have key : (Real.cos a * (1 - o) + Real.cos b * o) ^ 2 +
      (Real.sin a * (1 - o) + Real.sin b * o) ^ 2 =
      (Real.sin a ^ 2 + Real.cos a ^ 2) * (1 - o) ^ 2 +
        (Real.sin b ^ 2 + Real.cos b ^ 2) * o ^ 2 +
        2 * (o * (1 - o)) * (Real.cos a * Real.cos b + Real.sin a * Real.sin b) := by
    ring
  rw [key, ha, hb]
  nlinarith [mul_le_mul_of_nonneg_left hab hw]

theorem LensUV_polygon_eq (c : Camera) (disk : Vec2f ℝ → Vec2f ℝ) (rng : RNG)
    (hS : c.ApertureShape = Enums.ApertureShape.Polygon) :
    (c.LensUV disk rng).1 =
      ⟨(Real.cos ((c.PolygonSide (rng.draws 0) : ℝ) * Real.pi * 2 / (c.NoApertureBlades : ℝ) +
            c.ApertureAngle) * (1 - c.PolygonOffset (rng.draws 0)) +
          Real.cos (((c.PolygonSide (rng.draws 0) : ℝ) + 1) * Real.pi * 2 /
            (c.NoApertureBlades : ℝ) + c.ApertureAngle) * c.PolygonOffset (rng.draws 0)) *
          Real.sqrt (rng.draws 1) * c.ApertureSize,
        (Real.sin ((c.PolygonSide (rng.draws 0) : ℝ) * Real.pi * 2 / (c.NoApertureBlades : ℝ) +
            c.ApertureAngle) * (1 - c.PolygonOffset (rng.draws 0)) +
          Real.sin (((c.PolygonSide (rng.draws 0) : ℝ) + 1) * Real.pi * 2 /
            (c.NoApertureBlades : ℝ) + c.ApertureAngle) * c.PolygonOffset (rng.draws 0)) *
          Real.sqrt (rng.draws 1) * c.ApertureSize⟩ := by
  simp only [LensUV, hS, RNG.Get1, PolygonSide, PolygonOffset, PolygonLensY]

theorem PolygonSide_bounds (c : Camera) (g : ℝ) (hn : 1 ≤ c.NoApertureBlades) (h0 : 0 ≤ g)
    (h1 : g < 1) :
    0 ≤ c.PolygonSide g ∧ c.PolygonSide g < c.NoApertureBlades ∧
    0 ≤ c.PolygonOffset g ∧ c.PolygonOffset g < 1 := by
  have hnr : (0 : ℝ) < (c.NoApertureBlades : ℝ) := by
    have : (0 : ℤ) < c.NoApertureBlades := by omega
    exact_mod_cast this
  have hy0 : 0 ≤ c.PolygonLensY g := mul_nonneg h0 hnr.le
  have hy1 : c.PolygonLensY g < (c.NoApertureBlades : ℝ) := by
    unfold PolygonLensY
    nlinarith
  have hside : c.PolygonSide g = ⌊c.PolygonLensY g⌋ := truncToInt_of_nonneg _ hy0
  refine ⟨?_, ?_, ?_, ?_⟩
  · rw [hside]
    exact Int.floor_nonneg.mpr hy0
  · rw [hside]
    exact Int.floor_lt.mpr hy1
  · unfold PolygonOffset
    rw [hside]
    exact sub_nonneg.mpr (Int.floor_le _)
  · unfold PolygonOffset
    rw [hside]
    exact sub_lt_iff_lt_add'.mpr (Int.lt_floor_add_one _)

theorem LensUV_polygon_sq_le (c : Camera) (disk : Vec2f ℝ → Vec2f ℝ) (rng : RNG)
    (hS : c.ApertureShape = Enums.ApertureShape.Polygon) (hn : 1 ≤ c.NoApertureBlades)
    (h00 : 0 ≤ rng.draws 0) (h01 : rng.draws 0 < 1) (h10 : 0 ≤ rng.draws 1)
    (h11 : rng.draws 1 < 1) :
    (c.LensUV disk rng).1.x ^ 2 + (c.LensUV disk rng).1.y ^ 2 ≤ c.ApertureSize ^ 2 := by
  obtain ⟨-, -, ho0, ho1⟩ := PolygonSide_bounds c (rng.draws 0) hn h00 h01
  rw [LensUV_polygon_eq c disk rng hS]
  have hE := blade_chord_le_one
    ((c.PolygonSide (rng.draws 0) : ℝ) * Real.pi * 2 / (c.NoApertureBlades : ℝ) + c.ApertureAngle)
    (((c.PolygonSide (rng.draws 0) : ℝ) + 1) * Real.pi * 2 / (c.NoApertureBlades : ℝ) +
      c.ApertureAngle)
    (c.PolygonOffset (rng.draws 0)) ho0 ho1.le
  have hD : Real.sqrt (rng.draws 1) ^ 2 = rng.draws 1 := Real.sq_sqrt h10
  have hs2 : 0 ≤ c.ApertureSize ^ 2 := sq_nonneg _
  simp only []
  generalize Real.cos ((c.PolygonSide (rng.draws 0) : ℝ) * Real.pi * 2 /
    (c.NoApertureBlades : ℝ) + c.ApertureAngle) * (1 - c.PolygonOffset (rng.draws 0)) +
    Real.cos (((c.PolygonSide (rng.draws 0) : ℝ) + 1) * Real.pi * 2 /
      (c.NoApertureBlades : ℝ) + c.ApertureAngle) * c.PolygonOffset (rng.draws 0) = ex at hE ⊢
  generalize Real.sin ((c.PolygonSide (rng.draws 0) : ℝ) * Real.pi * 2 /
    (c.NoApertureBlades : ℝ) + c.ApertureAngle) * (1 - c.PolygonOffset (rng.draws 0)) +
    Real.sin (((c.PolygonSide (rng.draws 0) : ℝ) + 1) * Real.pi * 2 /
      (c.NoApertureBlades : ℝ) + c.ApertureAngle) * c.PolygonOffset (rng.draws 0) = ey at hE ⊢
  have key : (ex * Real.sqrt (rng.draws 1) * c.ApertureSize) ^ 2 +
      (ey * Real.sqrt (rng.draws 1) * c.ApertureSize) ^ 2 =
      c.ApertureSize ^ 2 * (rng.draws 1 * (ex ^ 2 + ey ^ 2)) := by
    have e : (ex * Real.sqrt (rng.draws 1) * c.ApertureSize) ^ 2 +
        (ey * Real.sqrt (rng.draws 1) * c.ApertureSize) ^ 2 =
        c.ApertureSize ^ 2 * (Real.sqrt (rng.draws 1) ^ 2 * (ex ^ 2 + ey ^ 2)) := by
      ring
    rw [e, hD]
  rw [key]
  have hprod : rng.draws 1 * (ex ^ 2 + ey ^ 2) ≤ 1 := by
    have hpos : 0 ≤ ex ^ 2 + ey ^ 2 := by positivity
    nlinarith
  nlinarith

theorem Length_lens_offset (c : Camera) (hO : c.Orthonormal) (lx ly : ℝ) :
    Length (c.Pos + (c.U * lx + c.V * ly) - c.Pos) = Real.sqrt (lx ^ 2 + ly ^ 2) := by
  obtain ⟨-, hU, hV, -, -, hUV⟩ := hO
  unfold Length
  congr 1
  have : Dot (c.Pos + (c.U * lx + c.V * ly) - c.Pos) (c.Pos + (c.U * lx + c.V * ly) - c.Pos) =
      lx ^ 2 * Dot c.U c.U + ly ^ 2 * Dot c.V c.V + 2 * lx * ly * Dot c.U c.V := by
    simp only [Dot, Vec3f.add_def, Vec3f.sub_def, Vec3f.mul_def]
    ring
  rw [this, hU, hV, hUV]
  ring

/-- C21: with a polygonal aperture of `n ≥ 1` blades, any aperture angle, aperture
size `s > 0` and the two lens draws in `[0, 1)` (the third and fourth draw of the
source given to `Sample`), the selected blade `Side` satisfies `0 ≤ Side < n`, the
interpolation fraction `Offset` lies in `[0, 1)`, the lens offset `LensUV` has
Euclidean length at most `s`, and with an orthonormal basis the origin of the ray
`Sample` returns is at distance at most `s` from `Pos`. -/
theorem Sample_polygon_inside_aperture (c : Camera) (disk : Vec2f ℝ → Vec2f ℝ) (UV : Vec2i)
    (rng : RNG) (hS : c.ApertureShape = Enums.ApertureShape.Polygon)
    (hn : 1 ≤ c.NoApertureBlades) (hs : 0 < c.ApertureSize)
    (h2 : 0 ≤ rng.draws 2 ∧ rng.draws 2 < 1) (h3 : 0 ≤ rng.draws 3 ∧ rng.draws 3 < 1) :
    0 ≤ c.PolygonSide (rng.draws 2) ∧ c.PolygonSide (rng.draws 2) < c.NoApertureBlades ∧
    0 ≤ c.PolygonOffset (rng.draws 2) ∧ c.PolygonOffset (rng.draws 2) < 1 ∧
    Real.sqrt ((c.LensUV disk rng.Get1.2.Get1.2).1.x ^ 2 +
      (c.LensUV disk rng.Get1.2.Get1.2).1.y ^ 2) ≤ c.ApertureSize ∧
    (c.Sample disk UV rng).1.O =
      c.Pos + (c.U * (c.LensUV disk rng.Get1.2.Get1.2).1.x +
        c.V * (c.LensUV disk rng.Get1.2.Get1.2).1.y) ∧
    (c.Orthonormal → Length ((c.Sample disk UV rng).1.O - c.Pos) ≤ c.ApertureSize) := by
  obtain ⟨b0, b1, b2, b3⟩ := PolygonSide_bounds c (rng.draws 2) hn h2.1 h2.2
  have hsq := LensUV_polygon_sq_le c disk rng.Get1.2.Get1.2 hS hn h2.1 h2.2 h3.1 h3.2
  have hle : Real.sqrt ((c.LensUV disk rng.Get1.2.Get1.2).1.x ^ 2 +
      (c.LensUV disk rng.Get1.2.Get1.2).1.y ^ 2) ≤ c.ApertureSize :=
    Real.sqrt_le_iff.mpr ⟨hs.le, hsq⟩
  have hO := Sample_lens_eq c disk UV rng hs.ne'
  refine ⟨b0, b1, b2, b3, hle, by rw [hO], fun hOrth => ?_⟩
  rw [hO]
  show Length (c.Pos + _ - c.Pos) ≤ _
  rw [Length_lens_offset c hOrth]
  exact hle

/-- Witness of C21: six blades, aperture size `1`, aperture angle `0`, all draws
`0`. -/
theorem Sample_polygon_inside_aperture_witness :
    (1 : ℤ) ≤ (lensCamera Enums.ApertureShape.Polygon 10).NoApertureBlades ∧
    (0 : ℝ) < (lensCamera Enums.ApertureShape.Polygon 10).ApertureSize ∧
    0 ≤ (lensCamera Enums.ApertureShape.Polygon 10).PolygonSide (zeroRNG.draws 2) ∧
    (lensCamera Enums.ApertureShape.Polygon 10).PolygonSide (zeroRNG.draws 2) <
      (lensCamera Enums.ApertureShape.Polygon 10).NoApertureBlades ∧
    0 ≤ (lensCamera Enums.ApertureShape.Polygon 10).PolygonOffset (zeroRNG.draws 2) ∧
    (lensCamera Enums.ApertureShape.Polygon 10).PolygonOffset (zeroRNG.draws 2) < 1 ∧
    Real.sqrt
        (((lensCamera Enums.ApertureShape.Polygon 10).LensUV (fun v => v)
            zeroRNG.Get1.2.Get1.2).1.x ^ 2 +
          ((lensCamera Enums.ApertureShape.Polygon 10).LensUV (fun v => v)
            zeroRNG.Get1.2.Get1.2).1.y ^ 2) ≤
      (lensCamera Enums.ApertureShape.Polygon 10).ApertureSize ∧
    ((lensCamera Enums.ApertureShape.Polygon 10).Sample (fun v => v) ⟨6, 6⟩ zeroRNG).1.O =
      (lensCamera Enums.ApertureShape.Polygon 10).Pos +
        ((lensCamera Enums.ApertureShape.Polygon 10).U *
            ((lensCamera Enums.ApertureShape.Polygon 10).LensUV (fun v => v)
              zeroRNG.Get1.2.Get1.2).1.x +
          (lensCamera Enums.ApertureShape.Polygon 10).V *
            ((lensCamera Enums.ApertureShape.Polygon 10).LensUV (fun v => v)
              zeroRNG.Get1.2.Get1.2).1.y) ∧
    ((lensCamera Enums.ApertureShape.Polygon 10).Orthonormal →
      Length (((lensCamera Enums.ApertureShape.Polygon 10).Sample (fun v => v) ⟨6, 6⟩
        zeroRNG).1.O - (lensCamera Enums.ApertureShape.Polygon 10).Pos) ≤
        (lensCamera Enums.ApertureShape.Polygon 10).ApertureSize) :=
  ⟨by decide, by norm_num [lensCamera],
    Sample_polygon_inside_aperture (lensCamera Enums.ApertureShape.Polygon 10) (fun v => v) ⟨6, 6⟩
      zeroRNG rfl (by decide) (by norm_num [lensCamera]) ⟨le_refl _, zero_lt_one⟩
      ⟨le_refl _, zero_lt_one⟩⟩

end Camera

/-! ## Properties of the tracer -/

namespace Tracer

/-- C15: a default-constructed `Tracer` has `DensityScale = 1000`, `Shadows = true`
and `AcceleratorType = Octree`, together with `ShadingType = BrdfOnly`,
`OpacityModulated = true`, `GradientFactor = 0.5`,
`GradientMode = CentralDifferences`, `StepFactorPrimary = 1` and
`StepFactorOcclusion = 1`. -/
theorem new_defaults (S C : Type) [Inhabited S] [Inhabited C] :
    (Tracer.new : Tracer S C).DensityScale = 1000 ∧
    (Tracer.new : Tracer S C).Shadows = true ∧
    (Tracer.new : Tracer S C).AcceleratorType = Enums.AcceleratorType.Octree ∧
    (Tracer.new : Tracer S C).ShadingType = Enums.ShadingMode.BrdfOnly ∧
    (Tracer.new : Tracer S C).OpacityModulated = true ∧
    (Tracer.new : Tracer S C).GradientFactor = 1 / 2 ∧
    (Tracer.new : Tracer S C).GradientMode = Enums.GradientMode.CentralDifferences ∧
    (Tracer.new : Tracer S C).StepFactorPrimary = 1 ∧
    (Tracer.new : Tracer S C).StepFactorOcclusion = 1 :=
  ⟨rfl, rfl, rfl, rfl, rfl, rfl, rfl, rfl, rfl⟩

/-- C14: for every `Tracer` `t1`, the assignment `t2 = t1` and the copy constructor
`Tracer(t1)` yield a `Tracer` whose six transfer functions and nine configuration
fields equal those of `t1`; `t1` is unchanged by either; and a later
`SetDensityScale` on `t2` changes the `DensityScale` of `t2` and leaves `t1`
unchanged. -/
theorem copy_is_full_value_copy {S C : Type} [Inhabited S] [Inhabited C] (t1 t2 : Tracer S C)
    (Value : ℚ) :
    (t2.assign t1).Opacity1D = t1.Opacity1D ∧
    (t2.assign t1).Diffuse1D = t1.Diffuse1D ∧
    (t2.assign t1).Specular1D = t1.Specular1D ∧
    (t2.assign t1).Glossiness1D = t1.Glossiness1D ∧
    (t2.assign t1).IndexOfReflection1D = t1.IndexOfReflection1D ∧
    (t2.assign t1).Emission1D = t1.Emission1D ∧
    (t2.assign t1).Shadows = t1.Shadows ∧
    (t2.assign t1).ShadingType = t1.ShadingType ∧
    (t2.assign t1).DensityScale = t1.DensityScale ∧
    (t2.assign t1).OpacityModulated = t1.OpacityModulated ∧
    (t2.assign t1).GradientFactor = t1.GradientFactor ∧
    (t2.assign t1).GradientMode = t1.GradientMode ∧
    (t2.assign t1).AcceleratorType = t1.AcceleratorType ∧
    (t2.assign t1).StepFactorPrimary = t1.StepFactorPrimary ∧
    (t2.assign t1).StepFactorOcclusion = t1.StepFactorOcclusion ∧
    (Tracer.copy t1).Opacity1D = t1.Opacity1D ∧
    (Tracer.copy t1).Diffuse1D = t1.Diffuse1D ∧
    (Tracer.copy t1).Specular1D = t1.Specular1D ∧
    (Tracer.copy t1).Glossiness1D = t1.Glossiness1D ∧
    (Tracer.copy t1).IndexOfReflection1D = t1.IndexOfReflection1D ∧
    (Tracer.copy t1).Emission1D = t1.Emission1D ∧
    (Tracer.copy t1).Shadows = t1.Shadows ∧
    (Tracer.copy t1).ShadingType = t1.ShadingType ∧
    (Tracer.copy t1).DensityScale = t1.DensityScale ∧
    (Tracer.copy t1).OpacityModulated = t1.OpacityModulated ∧
    (Tracer.copy t1).GradientFactor = t1.GradientFactor ∧
    (Tracer.copy t1).GradientMode = t1.GradientMode ∧
    (Tracer.copy t1).AcceleratorType = t1.AcceleratorType ∧
    (Tracer.copy t1).StepFactorPrimary = t1.StepFactorPrimary ∧
    (Tracer.copy t1).StepFactorOcclusion = t1.StepFactorOcclusion ∧
    t2.assign t1 = t1 ∧ Tracer.copy t1 = t1 ∧
    (TracerPair.mk t1 t2).assignT2.t1 = t1 ∧ (TracerPair.mk t1 t2).assignT2.t2 = t1 ∧
    (TracerPair.mk t1 t2).copyT2.t1 = t1 ∧ (TracerPair.mk t1 t2).copyT2.t2 = t1 ∧
    ((TracerPair.mk t1 t2).assignT2.setDensityScaleT2 Value).t2.GetDensityScale = Value ∧
    ((TracerPair.mk t1 t2).assignT2.setDensityScaleT2 Value).t1 = t1 ∧
    ((TracerPair.mk t1 t2).copyT2.setDensityScaleT2 Value).t2.GetDensityScale = Value ∧
    ((TracerPair.mk t1 t2).copyT2.setDensityScaleT2 Value).t1 = t1 :=
  ⟨rfl, rfl, rfl, rfl, rfl, rfl, rfl, rfl, rfl, rfl, rfl, rfl, rfl, rfl, rfl,
    rfl, rfl, rfl, rfl, rfl, rfl, rfl, rfl, rfl, rfl, rfl, rfl, rfl, rfl, rfl,
    rfl, rfl, rfl, rfl, rfl, rfl, rfl, rfl, rfl, rfl⟩

/-- A concrete run of the scenario of C14 and C15: a default tracer `t1` is copied
over a tracer with other values, the copy's density scale is set to `5`, and `t1`
still has `1000`. -/
theorem copy_scenario :
    ((TracerPair.mk (Tracer.new : Tracer ℕ ℕ) sampleTracer).assignT2.setDensityScaleT2
      5).t2.DensityScale = 5 ∧
    ((TracerPair.mk (Tracer.new : Tracer ℕ ℕ) sampleTracer).assignT2.setDensityScaleT2
      5).t1.DensityScale = 1000 ∧
    (TracerPair.mk (Tracer.new : Tracer ℕ ℕ) sampleTracer).assignT2.t2 = Tracer.new ∧
    Tracer.copy sampleTracer = sampleTracer :=
  ⟨rfl, rfl, rfl, rfl⟩

end Tracer

end ExposureRender
